import Mathlib

/-!
Verification of the hdr-sucks transcode orchestrator (src/index.js).

The JavaScript source is shallowly embedded: JS numbers are modelled as
exact rationals extended with NaN and the two infinities (`JSNum`);
JS strings are Lean `String`s; absent object fields are `Option`/`none`;
fallible code returns `Except`.  Floating-point rounding of JS doubles is
abstracted to exact rational arithmetic.
-/

set_option maxRecDepth 8000

attribute [local semireducible] Rat.mul Rat.add Rat.sub Rat.inv Rat.ofScientific

deriving instance DecidableEq for Except

namespace HdrSucks

/-- Model of a JS number: NaN, +Infinity, -Infinity, or a finite value
(modelled as an exact rational). -/
inductive JSNum where
  | nan
  | inf
  | ninf
  | fin (q : ℚ)
deriving DecidableEq, Repr

namespace JSNum

/-- `isNaN(x)` for a JS number. -/
def isNaN : JSNum → Bool
  | .nan => true
  | _ => false

/-- JS `+` on numbers, restricted to the cases the program can reach. -/
def add : JSNum → JSNum → JSNum
  | .fin a, .fin b => .fin (a + b)
  | .nan, _ | _, .nan => .nan
  | .inf, .ninf | .ninf, .inf => .nan
  | .inf, _ | _, .inf => .inf
  | .ninf, _ | _, .ninf => .ninf

/-- JS binary `-` on numbers. -/
def sub : JSNum → JSNum → JSNum
  | .fin a, .fin b => .fin (a - b)
  | .nan, _ | _, .nan => .nan
  | .inf, .inf | .ninf, .ninf => .nan
  | .inf, _ | _, .ninf => .inf
  | .ninf, _ | _, .inf => .ninf

/-- JS `*` on numbers.  Signed zero is not modelled: products with an
infinite operand and zero are NaN, as in JS. -/
def mul : JSNum → JSNum → JSNum
  | .fin a, .fin b => .fin (a * b)
  | .nan, _ | _, .nan => .nan
  | .inf, .fin b | .fin b, .inf =>
      if b = 0 then .nan else if b > 0 then .inf else .ninf
  | .ninf, .fin b | .fin b, .ninf =>
      if b = 0 then .nan else if b > 0 then .ninf else .inf
  | .inf, .inf | .ninf, .ninf => .inf
  | .inf, .ninf | .ninf, .inf => .ninf

/-- JS `/` on numbers.  Signed zero is not modelled: a finite value divided
by zero gives the infinity matching the sign of the dividend (0/0 is NaN). -/
def div : JSNum → JSNum → JSNum
  | .fin a, .fin b =>
      if b = 0 then
        if a = 0 then .nan else if a > 0 then .inf else .ninf
      else .fin (a / b)
  | .nan, _ | _, .nan => .nan
  | .inf, .inf | .inf, .ninf | .ninf, .inf | .ninf, .ninf => .nan
  | .inf, .fin b => if b ≥ 0 then .inf else .ninf
  | .ninf, .fin b => if b ≥ 0 then .ninf else .inf
  | .fin _, .inf | .fin _, .ninf => .fin 0

end JSNum

/-- The value `Math.round(x)` of a JS number: an integer, NaN or ±Infinity.
JS rounds half-way cases towards +Infinity (`Math.round(x) = floor(x + 0.5)`). -/
inductive JSIntVal where
  | nan
  | inf
  | ninf
  | int (n : ℤ)
deriving DecidableEq, Repr

/-- `Math.round` on a JS number. -/
def jsRound : JSNum → JSIntVal
  | .fin q => .int ⌊q + 1 / 2⌋
  | .nan => .nan
  | .inf => .inf
  | .ninf => .ninf

/-- `Math.ceil` on a JS number. -/
def jsCeil : JSNum → JSNum
  | .fin q => .fin ⌈q⌉
  | x => x

/-- How JS renders a `Math.round` result inside a template string. -/
def JSIntVal.render : JSIntVal → String
  | .nan => "NaN"
  | .inf => "Infinity"
  | .ninf => "-Infinity"
  | .int n => toString n

/-- Splitting a character list at every occurrence of the separator `c`,
modelling the JS `String.prototype.split` with a one-character separator. -/
def splitChar (c : Char) : List Char → List (List Char)
  | [] => [[]]
  | x :: xs =>
      if x = c then [] :: splitChar c xs
      else
        match splitChar c xs with
        | [] => [[x]]
        | h :: t => (x :: h) :: t

/-- JS `input.split(sep)` for a one-character separator, as used throughout
the source (`"/"`, `"p"`, `":"`, `"="`, `" "`). -/
def jsSplit (s : String) (c : Char) : List String :=
  (splitChar c s.toList).map (fun l => String.mk l)

/-- Digits of a base-`b` literal, most significant first, to a natural. -/
def digitsToNat (b : ℕ) (ds : List ℕ) : ℕ :=
  ds.foldl (fun acc d => acc * b + d) 0

/-- Hexadecimal digit value, if the character is one. -/
def hexDigit (c : Char) : Option ℕ :=
  if c.isDigit then some (c.toNat - 48)
  else if ('a' ≤ c ∧ c ≤ 'f') then some (c.toNat - 87)
  else if ('A' ≤ c ∧ c ≤ 'F') then some (c.toNat - 55)
  else none

/-- Decimal digit value, if the character is one. -/
def decDigit (c : Char) : Option ℕ :=
  if c.isDigit then some (c.toNat - 48) else none

/-- JS whitespace as far as `Number()` trimming is concerned (ASCII subset). -/
def jsWhite (c : Char) : Bool :=
  c = ' ' ∨ c = '\t' ∨ c = '\n' ∨ c = '\r'

/-- Parse a run of decimal digits; `none` if any character is not a digit. -/
def parseDigits : List Char → Option ℕ
  | [] => some 0
  | c :: cs => do
      let d ← decDigit c
      let r ← parseDigits cs
      pure (d * 10 ^ cs.length + r)

/-- The unsigned decimal body of a JS numeric literal:
`digits [ "." digits ] | "." digits`, followed by an optional exponent.
Returns the exact rational value, or `none` if malformed. -/
def parseDecBody (l : List Char) : Option ℚ :=
  let (mantissa, expPart) := l.span (fun c => c ≠ 'e' ∧ c ≠ 'E')
  let mant : Option ℚ :=
    let (ip, rest) := mantissa.span (·.isDigit)
    match rest with
    | [] => if ip = [] then none else (parseDigits ip).map (fun n => (n : ℚ))
    | '.' :: fp =>
        if ip = [] ∧ fp = [] then none
        else if fp.all (·.isDigit) then do
          let i ← parseDigits ip
          let f ← parseDigits fp
          pure ((i : ℚ) + (f : ℚ) / (10 : ℚ) ^ fp.length)
        else none
    | _ => none
  match mant with
  | none => none
  | some m =>
      match expPart with
      | [] => some m
      | _ :: ex =>
          let (sgn, ds) :=
            match ex with
            | '+' :: r => ((1 : ℤ), r)
            | '-' :: r => ((-1 : ℤ), r)
            | r => ((1 : ℤ), r)
          if ds = [] then none
          else (parseDigits ds).map (fun e => m * (10 : ℚ) ^ (sgn * (e : ℤ)))

/-- Parse a base-`b` digit run (for the `0x` / `0o` / `0b` literal forms). -/
def parseBaseDigits (b : ℕ) : List Char → Option ℕ
  | [] => none
  | l =>
      if l.all (fun c => (hexDigit c).any (· < b)) then
        some (digitsToNat b (l.map (fun c => (hexDigit c).getD 0)))
      else none

/-- Model of the JS `Number(string)` conversion: trims whitespace, maps the
empty string to 0, accepts decimal literals with optional sign, fraction and
exponent, the `Infinity` forms, and the `0x`/`0o`/`0b` radix forms; every
other string is NaN. -/
def jsNumber (s : String) : JSNum :=
  let t := (s.toList.dropWhile jsWhite).reverse.dropWhile jsWhite |>.reverse
  if t = [] then .fin 0
  else
    match t with
    | '0' :: 'x' :: r | '0' :: 'X' :: r =>
        match parseBaseDigits 16 r with
        | some n => .fin n
        | none => .nan
    | '0' :: 'o' :: r | '0' :: 'O' :: r =>
        match parseBaseDigits 8 r with
        | some n => .fin n
        | none => .nan
    | '0' :: 'b' :: r | '0' :: 'B' :: r =>
        match parseBaseDigits 2 r with
        | some n => .fin n
        | none => .nan
    | _ =>
        let (sgn, body) :=
          match t with
          | '+' :: r => ((1 : ℚ), r)
          | '-' :: r => ((-1 : ℚ), r)
          | r => ((1 : ℚ), r)
        if body = ['I', 'n', 'f', 'i', 'n', 'i', 't', 'y'] then
          if sgn = 1 then .inf else .ninf
        else
          match parseDecBody body with
          | some q => .fin (sgn * q)
          | none => .nan

/-- `src/index.js` `parse_slash_number`: the "safe" numerator/denominator
parser.  Splits on `"/"`; fewer than two parts falls back to `Number(input)`;
more than two parts or a NaN part gives NaN; otherwise the JS division of the
two parts. -/
def parse_slash_number (input : String) : JSNum :=
  let s := jsSplit input '/'
  if s.length < 2 then jsNumber input
  else if s.length > 2 ∨ (jsNumber (s.getD 0 "")).isNaN ∨ (jsNumber (s.getD 1 "")).isNaN then
    .nan
  else
    JSNum.div (jsNumber (s.getD 0 "")) (jsNumber (s.getD 1 ""))

example : jsNumber "5" = .fin 5 := by decide
example : jsNumber "" = .fin 0 := by decide
example : jsNumber "2.5" = .fin (5 / 2) := by decide
example : jsNumber "abc" = .nan := by decide
example : parse_slash_number "24000/1001" = .fin (24000 / 1001) := by decide
example : parse_slash_number "5" = .fin 5 := by decide
example : parse_slash_number "a/b" = .nan := by decide
example : parse_slash_number "1/2/3" = .nan := by decide
example : parse_slash_number "1/" = .inf := by decide
example : parse_slash_number "/" = .nan := by decide

/-- JS truthiness of a possibly-absent string field (`undefined` and `""` are
falsy, every other string truthy). -/
def optStrTruthy : Option String → Bool
  | none => false
  | some s => s ≠ ""

/-- The digits kept by the JS `replace(/\D/g, "")` idiom. -/
def stripNonDigits (s : String) : String :=
  String.mk (s.toList.filter Char.isDigit)

/-- `String.prototype.trim` (ASCII whitespace subset). -/
def jsTrim (s : String) : String :=
  String.mk ((s.toList.dropWhile jsWhite).reverse.dropWhile jsWhite |>.reverse)

/-- JS `toLowerCase()` (ASCII). -/
def jsToLower (s : String) : String :=
  String.mk (s.toList.map Char.toLower)

/-- JS `a.startsWith(b)`. -/
def jsStartsWith (s p : String) : Bool :=
  p.toList.isPrefixOf s.toList

/-- Does `sub` occur as a contiguous run inside `l`? -/
def listHasRun (sub : List Char) : List Char → Bool
  | [] => sub.isEmpty
  | x :: xs => sub.isPrefixOf (x :: xs) || listHasRun sub xs

/-- JS `a.includes(b)`: substring containment. -/
def jsIncludes (s sub : String) : Bool :=
  listHasRun sub.toList s.toList

/-- Failure modes of `parse_pix_fmt`: the explicit `Error("Input must be YUV")`
throw, or the implicit TypeError raised when the split has no second element
(`s[1]` is `undefined` and `.replace` is called on it). -/
inductive PixErr where
  | formatError
  | typeError
deriving DecidableEq, Repr

/-- The `{csp, depth}` record `parse_pix_fmt` builds for x265. -/
structure PixFmt where
  csp : String
  depth : String
deriving DecidableEq, Repr

/-- `src/index.js` `parse_pix_fmt`: requires the format string to contain
`"yuv"`, splits on `"p"`, keeps the digits of the first part as the chroma
subsampling and the digits of the second part (default `"8"` when the digit
string is empty, via `|| "8"`) as the bit depth. -/
def parse_pix_fmt (input : String) : Except PixErr PixFmt :=
  if ¬ jsIncludes input "yuv" then .error .formatError
  else
    match jsSplit input 'p' with
    | s0 :: s1 :: _ =>
        let d := stripNonDigits s1
        .ok ⟨"i" ++ stripNonDigits s0, if d = "" then "8" else d⟩
    | _ => .error .typeError

example : parse_pix_fmt "yuv420p10le" = .ok ⟨"i420", "10"⟩ := by decide
example : parse_pix_fmt "yuv444p" = .ok ⟨"i444", "8"⟩ := by decide
example : parse_pix_fmt "rgb24" = .error .formatError := by decide
example : parse_pix_fmt "yuv" = .error .typeError := by decide

/-- A JSON value sitting in a side-data field of the ffprobe output: absent,
a string, or a number (ffprobe side-data numerics are integers). -/
inductive JField where
  | absent
  | fstr (s : String)
  | fnum (n : ℤ)
deriving DecidableEq, Repr

/-- JS truthiness of a `JField` (`undefined`, `""` and `0` are falsy). -/
def JField.truthy : JField → Bool
  | .absent => false
  | .fstr s => s ≠ ""
  | .fnum n => n ≠ 0

/-- How a `JField` renders inside a JS template string. -/
def JField.render : JField → String
  | .absent => "undefined"
  | .fstr s => s
  | .fnum n => toString n

/-- Failure modes of `parse_master_display`.  Both explicit throw sites in the
source raise `Error("this wrong")`; the constructors record which site fired
(the truthiness presence test or the NaN test).  `typeError` models the
implicit TypeError of calling `.split` on a non-string field. -/
inductive MDErr where
  | missingField
  | notNumeric
  | typeError
deriving DecidableEq, Repr

/-- One step of the `parse_master_display` loop: presence test by truthiness,
parse by `parse_slash_number`, NaN test, and `Math.round(num * scale)`. -/
def mdField (f : JField) (scale : ℚ) : Except MDErr JSIntVal :=
  if ¬ f.truthy then .error .missingField
  else
    match f with
    | .fstr s =>
        let num := parse_slash_number s
        if num.isNaN then .error .notNumeric
        else .ok (jsRound (num.mul (.fin scale)))
    | _ => .error .typeError

/-- One ffprobe side-data record as the source consumes it: its
`side_data_type` discriminator plus the fields read by
`parse_master_display` (the ten mastering-display values) and by the
content-light-level branch (`max_content`, `max_average`).  Fields the
record does not carry are `absent`. -/
structure SideData where
  side_data_type : String
  green_x : JField := .absent
  green_y : JField := .absent
  blue_x : JField := .absent
  blue_y : JField := .absent
  red_x : JField := .absent
  red_y : JField := .absent
  white_point_x : JField := .absent
  white_point_y : JField := .absent
  max_luminance : JField := .absent
  min_luminance : JField := .absent
  max_content : JField := .absent
  max_average : JField := .absent
deriving DecidableEq, Repr

/-- `src/index.js` `parse_master_display`: iterates the ten fields in order
(indices 8 and 9, the luminances, scale by 10000, the others by 50000),
throwing on a falsy or NaN field, and formats the rounded values as
`G(..)B(..)R(..)WP(..)L(..)`. -/
def parse_master_display (p : SideData) : Except MDErr String := do
  let o0 ← mdField p.green_x 50000
  let o1 ← mdField p.green_y 50000
  let o2 ← mdField p.blue_x 50000
  let o3 ← mdField p.blue_y 50000
  let o4 ← mdField p.red_x 50000
  let o5 ← mdField p.red_y 50000
  let o6 ← mdField p.white_point_x 50000
  let o7 ← mdField p.white_point_y 50000
  let o8 ← mdField p.max_luminance 10000
  let o9 ← mdField p.min_luminance 10000
  pure ("G(" ++ o0.render ++ "," ++ o1.render ++ ")B(" ++ o2.render ++ "," ++
    o3.render ++ ")R(" ++ o4.render ++ "," ++ o5.render ++ ")WP(" ++
    o6.render ++ "," ++ o7.render ++ ")L(" ++ o8.render ++ "," ++ o9.render ++ ")")

example :
    parse_master_display
      { side_data_type := "Mastering display metadata",
        green_x := .fstr "13250/50000", green_y := .fstr "34500/50000",
        blue_x := .fstr "7500/50000", blue_y := .fstr "3000/50000",
        red_x := .fstr "34000/50000", red_y := .fstr "16000/50000",
        white_point_x := .fstr "15635/50000", white_point_y := .fstr "16450/50000",
        max_luminance := .fstr "10000000/10000", min_luminance := .fstr "1/10000" } =
    .ok "G(13250,34500)B(7500,3000)R(34000,16000)WP(15635,16450)L(10000000,1)" := by
  decide

example :
    parse_master_display
      { side_data_type := "Mastering display metadata",
        green_x := .fstr "13250/50000", green_y := .fstr "34500/50000",
        blue_x := .fstr "7500/50000", blue_y := .fstr "3000/50000",
        red_x := .fstr "34000/50000", red_y := .fstr "16000/50000",
        white_point_x := .fstr "15635/50000", white_point_y := .fstr "16450/50000",
        max_luminance := .fstr "10000000/10000", min_luminance := .fnum 0 } =
    .error .missingField := by decide

/-- Conversion from a `Math.round` result back to a JS number. -/
def JSIntVal.toNum : JSIntVal → JSNum
  | .nan => .nan
  | .inf => .inf
  | .ninf => .ninf
  | .int n => .fin n

/-- `parseInt(x, 10)` applied to a JS number (the number is stringified and
the leading integer part parsed): truncation towards zero for finite values,
NaN for NaN and the infinities.  Exponential stringification of very large
magnitudes is not modelled (the program only reaches moderate values). -/
def jsParseIntOfNum : JSNum → JSIntVal
  | .fin q => .int (if q ≥ 0 then ⌊q⌋ else ⌈q⌉)
  | _ => .nan

/-- JS `%` on integers: remainder carrying the sign of the dividend. -/
def jsMod (a b : ℤ) : ℤ := Int.tmod a b

/-- `src/index.js` `toHHMMSS`: seconds to `HH:MM:SS`, padding each component
to two characters when it is below 10.  A NaN or infinite input propagates
NaN through every component, as in JS. -/
def toHHMMSS (secs : JSNum) : String :=
  match jsParseIntOfNum secs with
  | .int n =>
      let pad : ℤ → String := fun v => if v < 10 then "0" ++ toString v else toString v
      pad (Int.fdiv n 3600) ++ ":" ++ pad (jsMod (Int.fdiv n 60) 60) ++ ":" ++
        pad (jsMod n 60)
  | _ => "NaN:NaN:NaN"

example : toHHMMSS (.fin 3661) = "01:01:01" := by decide
example : toHHMMSS (.fin 0) = "00:00:00" := by decide
example : toHHMMSS (.fin 86399) = "23:59:59" := by decide

/-- `src/index.js` `average_of`: sums the array and divides by its length
(the JS division of 0 by 0 makes the average of an empty array NaN). -/
def average_of (arr : List ℚ) : JSNum :=
  JSNum.div (.fin (arr.foldl (· + ·) 0)) (.fin arr.length)

/-- One progress sample captured by the x265 stderr pattern:
completed frames, instantaneous fps, bitrate. -/
structure X265Sample where
  doneFrames : ℕ
  fps : ℚ
  bitrate : ℚ
deriving DecidableEq, Repr

/-- The rolling-window update in the x265 progress handler: when the window
already holds 500 samples the oldest is shifted off, then the new sample is
pushed. -/
def x265_window_push (avg : List ℚ) (fps : ℚ) : List ℚ :=
  (if avg.length = 500 then avg.tail else avg) ++ [fps]

/-- One iteration of the x265 stderr handler (`src/index.js` `transcode`):
a chunk that does not match the progress pattern leaves the window unchanged
and prints nothing; a matching chunk updates the rolling window, averages it
and prints the ETA `(frames - doneFrames) / average`, rounded and formatted
with `toHHMMSS`.  The model returns the updated window and the formatted ETA
portion of the printed line. -/
def x265_progress_step (frames : JSNum) (avg : List ℚ) (chunk : Option X265Sample) :
    List ℚ × Option String :=
  match chunk with
  | none => (avg, none)
  | some smp =>
      let avg2 := x265_window_push avg smp.fps
      let eta := jsRound (JSNum.div (JSNum.sub frames (.fin smp.doneFrames)) (average_of avg2))
      (avg2, some (toHHMMSS eta.toNum))

/-- The window contents after feeding a whole stderr sample sequence. -/
def x265_window_run (frames : JSNum) (chunks : List (Option X265Sample)) : List ℚ :=
  chunks.foldl (fun avg c => (x265_progress_step frames avg c).1) []

/-- The seven ffprobe disposition flags the source copies into track tags. -/
structure Disposition where
  dflt : ℤ := 0
  forced : ℤ := 0
  hearing_impaired : ℤ := 0
  visual_impaired : ℤ := 0
  descriptions : ℤ := 0
  original : ℤ := 0
  comment : ℤ := 0
deriving DecidableEq, Repr

/-- An ffprobe stream descriptor, restricted to the fields the source reads.
`dflt` stands in for the JS property named `default`. -/
structure Stream where
  codec_type : String
  index : ℤ := 0
  pix_fmt : Option String := none
  r_frame_rate : String := ""
  field_order : Option String := none
  range : Option String := none
  color_range : Option String := none
  color_primaries : Option String := none
  color_transfer : Option String := none
  color_space : Option String := none
  duration : Option String := none
  tags : Option (List (String × String)) := none
  disposition : Option Disposition := none
  side_data_list : Option (List SideData) := none
deriving DecidableEq, Repr

/-- An ffprobe frame descriptor, restricted to the field the source reads. -/
structure Frame where
  side_data_list : Option (List SideData) := none
deriving DecidableEq, Repr

/-- The ffprobe container-format object, restricted to the field read. -/
structure FormatObj where
  duration : Option String := none
deriving DecidableEq, Repr

/-- Two decimal digits. -/
def parseTwoDigits : List Char → Option ℕ
  | [a, b] => do
      let x ← decDigit a
      let y ← decDigit b
      pure (10 * x + y)
  | _ => none

/-- Model of `Date.parse("1970-01-01T" ++ v ++ "Z")`, in milliseconds:
accepts `HH:MM`, `HH:MM:SS` and `HH:MM:SS.f...` (fraction truncated to
milliseconds, as V8 does), with the usual field ranges (hour 24 only at
exactly 24:00[:00]); anything else is NaN. -/
def jsDateParseEpochTime (v : String) : JSNum :=
  let fields : Option (ℕ × ℕ × ℕ × ℕ) :=
    match splitChar ':' v.toList with
    | [hh, mm] => do
        let h ← parseTwoDigits hh
        let m ← parseTwoDigits mm
        pure (h, m, 0, 0)
    | [hh, mm, ssf] => do
        let h ← parseTwoDigits hh
        let m ← parseTwoDigits mm
        match splitChar '.' ssf with
        | [ss] => do
            let s ← parseTwoDigits ss
            pure (h, m, s, 0)
        | [ss, frac] => do
            let s ← parseTwoDigits ss
            if frac = [] ∨ ¬ frac.all (·.isDigit) then none
            else
              let d3 := (frac ++ ['0', '0', '0']).take 3
              let ms ← parseDigits d3
              pure (h, m, s, ms)
        | _ => none
    | _ => none
  match fields with
  | none => .nan
  | some (h, m, s, ms) =>
      if (h ≤ 23 ∨ (h = 24 ∧ m = 0 ∧ s = 0 ∧ ms = 0)) ∧ m ≤ 59 ∧ s ≤ 59 then
        .fin (3600000 * h + 60000 * m + 1000 * s + ms)
      else .nan

example : jsDateParseEpochTime "01:00:00" = .fin 3600000 := by decide
example : jsDateParseEpochTime "00:24:00.096000000" = .fin 1440096 := by decide
example : jsDateParseEpochTime "junk" = .nan := by decide

/-- The tag-scanning loop inside `get_duration`: for each tag entry in order,
a key starting (case-insensitively) with `"duration"` returns the parsed
timestamp divided by 1000; otherwise, when the container duration is truthy
it is returned instead; otherwise the scan continues. -/
def get_duration_scan (format : FormatObj) : List (String × String) → JSNum
  | [] => .nan
  | (k, v) :: rest =>
      if jsStartsWith (jsToLower k) "duration" then
        JSNum.div (jsDateParseEpochTime v) (.fin 1000)
      else if optStrTruthy format.duration then jsNumber (format.duration.getD "")
      else get_duration_scan format rest

/-- `src/index.js` `get_duration`: a truthy stream duration wins; otherwise,
when a tags object exists, its entries are scanned by `get_duration_scan`;
otherwise NaN. -/
def get_duration (stream : Stream) (format : FormatObj) : JSNum :=
  if optStrTruthy stream.duration then jsNumber (stream.duration.getD "")
  else
    match stream.tags with
    | some entries => get_duration_scan format entries
    | none => .nan

example :
    get_duration { codec_type := "video", duration := some "7.5" } {} = .fin (15 / 2) := by
  decide
example :
    get_duration { codec_type := "video" } { duration := some "5" } = .nan := by decide
example :
    get_duration
      { codec_type := "video", tags := some [("language", "eng")] }
      { duration := some "5" } = .fin 5 := by decide
example :
    get_duration
      { codec_type := "video",
        tags := some [("language", "eng"), ("DURATION", "00:01:00")] }
      { duration := some "5" } = .fin 5 := by decide
example :
    get_duration
      { codec_type := "video", tags := some [("DURATION", "00:01:00")] }
      { duration := some "5" } = .fin 60 := by decide

/-- The output-depth policy in `main` (`src/index.js`): with `--keep-bit`
the input depth is kept and 8-bit input additionally enables `--aq-mode 3`;
without it 8-bit input is promoted to output depth 10 and any other depth is
kept. -/
def build_depth_args (keepBit : Bool) (depth : String) : List String :=
  if keepBit then
    ["--output-depth", depth] ++ (if depth = "8" then ["--aq-mode", "3"] else [])
  else if depth = "8" then ["--output-depth", "10"]
  else ["--output-depth", depth]

/-- The `COLOR_RANGE` lookup: `pc` maps to `full`, `tv` to `limited`, and any
other key yields JS `undefined`, which the spawned command line renders as
the string `"undefined"`. -/
def color_range_value : Option String → String
  | some "pc" => "full"
  | some "tv" => "limited"
  | _ => "undefined"

/-- The color-argument block of `main`: note that the source gates the
`--range` pair on the (normally absent) `stream.range` property while reading
the value from `stream.color_range`. -/
def build_color_args (st : Stream) : List String :=
  (if optStrTruthy st.range then ["--range", color_range_value st.color_range] else []) ++
  (if optStrTruthy st.color_primaries then ["--colorprim", st.color_primaries.getD ""] else []) ++
  (if optStrTruthy st.color_transfer then ["--transfer", st.color_transfer.getD ""] else []) ++
  (if optStrTruthy st.color_space then ["--colormatrix", st.color_space.getD ""] else [])

/-- The user-supplied `-o` x265 argument expansion in `main`: the option is
split on `":"`, each piece on `"="`, pieces with exactly two parts become a
`--key value` pair and every other piece is skipped. -/
def build_user_args (argsOpt : Option String) : List String :=
  if ¬ optStrTruthy argsOpt then []
  else
    (jsSplit (argsOpt.getD "") ':').foldl
      (fun acc a =>
        match jsSplit a '=' with
        | [k, v] => acc ++ ["--" ++ k, v]
        | _ => acc)
      []

/-- The complete x265 argument list `main` assembles, in push order: the
fixed input/y4m block, the depth policy, the color block, the HDR arguments
returned by the side-data scan, preset/crf/output, and the user-supplied
extras. -/
def build_x265_args (keepBit : Bool) (preset crf : String) (st : Stream) (fmt : PixFmt)
    (hdrArgs : List String) (outPath : String) (userArgs : Option String) : List String :=
  ["--input", "-", "--y4m"] ++ build_depth_args keepBit fmt.depth ++ build_color_args st ++
    hdrArgs ++ ["--preset", preset, "--crf", crf, "--output", outPath] ++
    build_user_args userArgs

/-- The external tools the orchestrator spawns. -/
inductive Tool where
  | ffprobe
  | ffmpeg
  | x265
  | dovi
  | hdr10plus
  | mkvmerge
deriving DecidableEq, Repr

/-- Observable side effects of a run: spawning a subprocess with an argument
list, or removing a file. -/
inductive Event where
  | spawn (t : Tool) (args : List String)
  | remove (path : String)
deriving DecidableEq, Repr

/-- `generate_temp_name`: the fixed prefix, a random hexadecimal component
(supplied externally to the model), and the artifact extension.  Joining with
the working directory is out of scope. -/
def generate_temp_name (hex : String) (extra : String) : String :=
  ".hdrsucks-" ++ hex ++ extra

/-- The `JobPaths` record `main` creates and the HDR stages mutate. -/
structure Paths where
  input : String
  output : String
  temp : String
  dv : Option String := none
  plus : Option String := none
  audio_temp : List String := []
deriving DecidableEq, Repr

/-- A JS value stored in a `Paths` field, for the `Object.entries` walk in
`post_hdr`. -/
inductive PathVal where
  | str (s : String)
  | opt (o : Option String)
  | list (l : List String)
deriving DecidableEq, Repr

/-- `Object.entries(paths)`, in the insertion order of the object literal in
`main`. -/
def Paths.entries (p : Paths) : List (String × PathVal) :=
  [("input", .str p.input), ("output", .str p.output), ("temp", .str p.temp),
   ("dv", .opt p.dv), ("plus", .opt p.plus), ("audio_temp", .list p.audio_temp)]

/-- The string held by a truthy string-valued `PathVal` (`null`, `undefined`
and `""` are falsy). -/
def PathVal.truthyStr : PathVal → Option String
  | .str s => if s = "" then none else some s
  | .opt (some s) => if s = "" then none else some s
  | _ => none

/-- An oracle for one spawned side-tool run: its exit code and its trimmed
diagnostic (stderr) text. -/
def ToolOracle : Type := Tool → List String → ℤ × String

/-- `src/index.js` `ff_xtract`: spawns the fixed codec-copy ffmpeg command
piped into the side tool, and reports the side tool's exit code together with
its trimmed stderr (`e` is `null` exactly when the exit code is 0). -/
def ff_xtract (file : String) (sec : Tool) (args : List String) (orc : ToolOracle) :
    List Event × ℤ × Option String :=
  let ffargs := ["-i", file, "-map", "0:v:0?", "-c:v", "copy",
    "-bsf:v", "hevc_mp4toannexb", "-f", "hevc", "-"]
  let (c, e) := orc sec args
  ([.spawn .ffmpeg ffargs, .spawn sec args], c, if c = 0 then none else some e)

/-- `src/index.js` `ff_inject`: spawns the side tool once and reports its
exit code together with its trimmed stderr (`e` is `null` exactly when the
exit code is 0). -/
def ff_inject (orc : ToolOracle) (t : Tool) (args : List String) :
    List Event × ℤ × Option String :=
  let (c, e) := orc t args
  ([.spawn t args], c, if c = 0 then none else some e)

/-- The `side_data_type` string of each of the four metadata kinds, in the
order `pre_hdr` tests them. -/
def mdType : String := "Mastering display metadata"

def cllType : String := "Content light level metadata"

def doviType : String := "DOVI configuration record"

def plusType : String := "HDR Dynamic Metadata SMPTE2094-40 (HDR10+)"

/-- `src/index.js` `find`: first record of the requested `side_data_type` in
a (possibly absent, possibly empty) side-data list. -/
def find (side_data : Option (List SideData)) (t : String) : Option SideData :=
  match side_data with
  | some l => if l.length > 0 then l.find? (fun a => a.side_data_type = t) else none
  | none => none

/-- How `pre_hdr` can fail: an explicit `rej(...)` of the promise, or an
exception thrown inside the `async` promise executor (which in Node leaves
the outer promise unsettled — recorded separately so `main` can model the
resulting hang). -/
inductive PreErr where
  | reject (msg : String)
  | thrown (msg : String)
deriving DecidableEq, Repr

/-- The evolving state of the `pre_hdr` scan.  `done0`-`done3` and `out`,
`dv`, `plus` mirror the source's `done` array, `out` array and `paths`
mutations; `events` and `fresh` record spawns and consume generated temp
names; `used0`-`used3` are specification-only ghost fields recording which
side-data record each kind consumed. -/
structure ScanSt where
  done0 : Bool := false
  done1 : Bool := false
  done2 : Bool := false
  done3 : Bool := false
  used0 : Option SideData := none
  used1 : Option SideData := none
  used2 : Option SideData := none
  used3 : Option SideData := none
  out : List String := []
  dv : Option String := none
  plus : Option String := none
  events : List Event := []
  fresh : List String := []

/-- The mastering-display paragraph of the `pre_hdr` loop body. -/
def scan_md (e : Option (List SideData)) (st : ScanSt) : Except PreErr ScanSt :=
  match find e mdType with
  | some r =>
      if st.done0 then .ok st
      else
        match parse_master_display r with
        | .ok s =>
            .ok { st with done0 := true, used0 := some r,
                          out := st.out ++ ["--master-display", s] }
        | .error _ => .error (.thrown "this wrong")
  | none => .ok st

/-- The content-light-level paragraph of the `pre_hdr` loop body. -/
def scan_cll (e : Option (List SideData)) (st : ScanSt) : ScanSt :=
  match find e cllType with
  | some r =>
      if st.done1 then st
      else
        { st with done1 := true, used1 := some r,
                  out := st.out ++
                    ["--max-cll", r.max_content.render ++ "," ++ r.max_average.render] }
  | none => st

/-- The Dolby-Vision paragraph of the `pre_hdr` loop body: allocates the
`.bin` sidecar path and runs the extraction pair. -/
def scan_dovi (orc : ToolOracle) (input : String) (e : Option (List SideData))
    (st : ScanSt) : Except PreErr ScanSt :=
  match find e doviType with
  | some r =>
      if st.done2 then .ok st
      else
        let name := generate_temp_name (st.fresh.headD "") ".bin"
        let args := jsSplit ("extract-rpu -o " ++ name ++ " -") ' '
        let (evs, c, eOpt) := ff_xtract input .dovi args orc
        let st' := { st with done2 := true, used2 := some r, dv := some name,
                             fresh := st.fresh.tail, events := st.events ++ evs }
        match eOpt with
        | some s =>
            if s ≠ "" then
              .error (.reject ("Extracting Dolby Vision failed (" ++ toString c ++
                "): \"" ++ s ++ "\""))
            else .ok st'
        | none => .ok st'
  | none => .ok st

/-- The HDR10+ paragraph of the `pre_hdr` loop body: allocates the `.json`
sidecar path and runs the extraction pair. -/
def scan_plus (orc : ToolOracle) (input : String) (e : Option (List SideData))
    (st : ScanSt) : Except PreErr ScanSt :=
  match find e plusType with
  | some r =>
      if st.done3 then .ok st
      else
        let name := generate_temp_name (st.fresh.headD "") ".json"
        let args := jsSplit ("extract -o " ++ name ++ " -") ' '
        let (evs, c, eOpt) := ff_xtract input .hdr10plus args orc
        let st' := { st with done3 := true, used3 := some r, plus := some name,
                             fresh := st.fresh.tail, events := st.events ++ evs }
        match eOpt with
        | some s =>
            if s ≠ "" then
              .error (.reject ("Extracting HDR10+ failed (" ++ toString c ++
                "): \"" ++ s ++ "\""))
            else .ok st'
        | none => .ok st'
  | none => .ok st

/-- The `!e.side_data_list || e.side_data_list.length < 1` skip guard. -/
def scan_skip (e : Option (List SideData)) : Bool :=
  match e with
  | none => true
  | some l => l.length < 1

/-- One iteration of the `for (const e of [stream, frame])` loop in
`pre_hdr`: an absent or empty side-data list is skipped, otherwise the four
kind paragraphs run in order. -/
def scan_coll (orc : ToolOracle) (input : String) (e : Option (List SideData))
    (st : ScanSt) : Except PreErr ScanSt :=
  if scan_skip e then .ok st
  else do
    let st1 ← scan_md e st
    let st2 := scan_cll e st1
    let st3 ← scan_dovi orc input e st2
    scan_plus orc input e st3

/-- `src/index.js` `pre_hdr`: scans the stream-level side-data collection and
then the first-frame-level one, recording each of the four metadata kinds at
most once, pushing encoder arguments and running the extraction
sub-pipelines. -/
def pre_hdr (stream_sdl frame_sdl : Option (List SideData)) (input : String)
    (fresh : List String) (orc : ToolOracle) : Except PreErr ScanSt := do
  let st1 ← scan_coll orc input stream_sdl { fresh := fresh }
  scan_coll orc input frame_sdl st1

/-- The loop of `src/index.js` `post_hdr` over `Object.entries(paths)`:
only a truthy `dv` or `plus` entry triggers an injection; each successful
injection removes the previous elementary stream and the consumed sidecar
and advances the current-file pointer. -/
def post_hdr_loop (orc : ToolOracle) :
    List (String × PathVal) → String → List String → List Event →
      List Event × List String × Except String String
  | [], cur, fresh, evs => (evs, fresh, .ok cur)
  | (k, v) :: rest, cur, fresh, evs =>
      let sel : Option (Tool × List String × String) :=
        if k = "dv" then
          match v.truthyStr with
          | some s => some (.dovi, ["inject-rpu", "--rpu-in", s], s)
          | none => none
        else if k = "plus" then
          match v.truthyStr with
          | some s => some (.hdr10plus, ["inject", "-j", s], s)
          | none => none
        else none
      match sel with
      | none => post_hdr_loop orc rest cur fresh evs
      | some (tool, args0, sidecar) =>
          let newTemp := generate_temp_name (fresh.headD "") ".hevc"
          let args := args0 ++ ["-i", cur, "-o", newTemp]
          let (iev, c, e) := ff_inject orc tool args
          match e with
          | some s =>
              if s ≠ "" then
                (evs ++ iev, fresh.tail, .error ("Injecting HDR (" ++ k ++ ") failed (" ++
                  toString c ++ "): \"" ++ s ++ "\""))
              else
                post_hdr_loop orc rest newTemp fresh.tail
                  (evs ++ iev ++ [.remove cur, .remove sidecar])
          | none =>
              post_hdr_loop orc rest newTemp fresh.tail
                (evs ++ iev ++ [.remove cur, .remove sidecar])

/-- `src/index.js` `post_hdr`: walks the `paths` entries starting from
`paths.temp` and returns the final current-file path. -/
def post_hdr (paths : Paths) (fresh : List String) (orc : ToolOracle) :
    List Event × List String × Except String String :=
  post_hdr_loop orc paths.entries paths.temp fresh []

/-- The parsed ffprobe JSON document. -/
structure ProbeData where
  streams : List Stream := []
  frames : List Frame := []
  format : FormatObj := {}
deriving DecidableEq, Repr

/-- Command-line options of `main`, after commander parsing (out-of-scope
CLI glue); defaults as declared in the source.  `args` is the extra-x265
`-o` option. -/
structure Opts where
  preset : String := "medium"
  crf : String := "23"
  keepBit : Bool := false
  doubleFps : Bool := false
  verbose : Bool := false
  opus : Bool := false
  opusBitrate : String := "128"
  time : Option String := none
  seek : Option String := none
  args : Option String := none

/-- Outcomes of every external interaction of one run, supplied to the
model: the probe tool's exit code, raw stderr and parsed output, the
extraction/injection side-tool results, the transcode and per-track opus
exit codes, the mkvmerge result, and the stream of random hexadecimal
components for `generate_temp_name`. -/
structure Oracle where
  probe_exit : ℤ := 0
  probe_stderr : String := ""
  probe_data : ProbeData := {}
  xtract : ToolOracle := fun _ _ => (0, "")
  transcode_exit : ℤ := 0
  inject : ToolOracle := fun _ _ => (0, "")
  opus_exits : ℕ → ℤ := fun _ => 0
  mkv_exit : ℤ := 0
  mkv_stderr : String := ""
  fresh : List String := []

/-- How a run of `main` ends when it does not succeed: an `err(...)` return,
an exception or promise rejection absorbed by the global `try`/`catch`, or a
hang (an exception thrown inside the `pre_hdr` async promise executor leaves
its promise unsettled, so the awaiting `main` never resumes). -/
inductive MainErr where
  | errReturn (msg : String)
  | caught (msg : String)
  | hangs
deriving DecidableEq, Repr

/-- The argument list `run_ffprobe` spawns. -/
def probe_args (file : String) : List String :=
  ["-i", file, "-hide_banner", "-of", "json", "-show_format", "-show_streams",
   "-show_frames", "-read_intervals", "%+#1"]

/-- The `extra_tags` / `aud_extra_tags` record `main` copies from a stream:
language defaults to `eng` and each tag entry whose lowercased key is
`language` overwrites it; the seven disposition flags are copied when a
disposition object exists.  `dflt` stands in for the JS property `default`. -/
structure TrackTags where
  language : String := "eng"
  dflt : ℤ := 0
  forced : ℤ := 0
  hearing_impaired : ℤ := 0
  visual_impaired : ℤ := 0
  text_descriptions : ℤ := 0
  original : ℤ := 0
  commentary : ℤ := 0
deriving DecidableEq, Repr

/-- Builds the track tags of a stream as `main` does. -/
def build_track_tags (st : Stream) : TrackTags :=
  let lang :=
    match st.tags with
    | some entries =>
        entries.foldl (fun acc kv => if jsToLower kv.1 = "language" then kv.2 else acc) "eng"
    | none => "eng"
  match st.disposition with
  | some d =>
      { language := lang, dflt := d.dflt, forced := d.forced,
        hearing_impaired := d.hearing_impaired, visual_impaired := d.visual_impaired,
        text_descriptions := d.descriptions, original := d.original,
        commentary := d.comment }
  | none => { language := lang }

/-- The per-track flag block of the mkvmerge command line. -/
def tag_args (t : TrackTags) : List String :=
  ["--language", "0:" ++ t.language,
   "--default-track-flag", "0:" ++ toString t.dflt,
   "--forced-display-flag", "0:" ++ toString t.forced,
   "--hearing-impaired-flag", "0:" ++ toString t.hearing_impaired,
   "--visual-impaired-flag", "0:" ++ toString t.visual_impaired,
   "--text-descriptions-flag", "0:" ++ toString t.text_descriptions,
   "--original-flag", "0:" ++ toString t.original,
   "--commentary-flag", "0:" ++ toString t.commentary]

/-- The full mkvmerge argument list of `src/index.js` `mkvmerge`. -/
def mkvmerge_args (paths : Paths) (extra : TrackTags) (aud : List TrackTags) : List String :=
  ["-o", paths.output] ++ tag_args extra ++ [paths.temp] ++
    (if aud.length > 0 then
      (aud.zip paths.audio_temp).foldl (fun acc tp => acc ++ tag_args tp.1 ++ [tp.2]) [] ++
        ["--no-audio"]
    else []) ++
    ["--no-video", paths.input]

/-- The per-track ffmpeg argument list of the opus stage. -/
def opus_args (input : String) (st : Stream) (bitrate tempName : String) : List String :=
  ["-i", input, "-map", "0:" ++ toString st.index, "-map_chapters", "-1",
   "-map_metadata", "-1", "-c:a", "libopus", "-b:a", bitrate ++ "k", tempName]

/-- The audio-transcode loop of `main`: for each audio stream, allocate an
`.opus` temp, build arguments and tags, and run the single-process ffmpeg
opus encode.  Returns the events, the audio temp paths and tag sets, and the
remaining fresh names, or the failing `err` return. -/
def opus_loop (input : String) (bitrate : String) (orc : Oracle) :
    List Stream → ℕ → List String → List Event → List String → List TrackTags →
      (List Event × List String × List TrackTags × List String) ⊕ (List Event × MainErr)
  | [], _, fresh, evs, temps, tags => .inl (evs, temps, tags, fresh)
  | st :: rest, i, fresh, evs, temps, tags =>
      let tempName := generate_temp_name (fresh.headD "") ".opus"
      let aargs := opus_args input st bitrate tempName
      let evs' := evs ++ [.spawn .ffmpeg aargs]
      let code := orc.opus_exits i
      if code ≠ 0 then
        .inr (evs', .errReturn ("Opus transcode failed: " ++ toString code))
      else
        opus_loop input bitrate orc rest (i + 1) fresh.tail evs'
          (temps ++ [tempName]) (tags ++ [build_track_tags st])

/-- The orchestrator of `src/index.js` (`main`), from the ffprobe invocation
onward, as a function of the externally observable outcomes in the `Oracle`.
Returns the ordered event trace and `none` on success or the terminating
outcome.  Command-line parsing, path resolution and logging are out of scope
(spec §1); `input`/`output` are the already-resolved paths. -/
def main_model (input output : String) (opts : Opts) (orc : Oracle) :
    List Event × Option MainErr :=
  let ev0 : List Event := [.spawn .ffprobe (probe_args input)]
  -- run_ffprobe: non-zero exit resolves `{ _e: trimmedStderr }`
  if orc.probe_exit ≠ 0 then
    let e := jsTrim orc.probe_stderr
    if e ≠ "" then
      (ev0, some (.errReturn ("Could not parse with ffprobe: " ++ e)))
    else
      -- `d._e` is falsy, so `d.streams.length` dereferences undefined
      (ev0, some (.caught "TypeError"))
  else
    let d := orc.probe_data
    if d.streams.length < 1 then
      (ev0, some (.errReturn "No streams were found in the file"))
    else
      match d.streams.find? (fun x => x.codec_type = "video") with
      | none => (ev0, some (.errReturn "No video stream was found in the file"))
      | some stream =>
          if d.frames.length < 1 then
            (ev0, some (.errReturn "No frames were found in the video stream"))
          else
            let frame := d.frames.headD {}
            let audio_streams := d.streams.filter (fun x => x.codec_type = "audio")
            let temp := generate_temp_name (orc.fresh.headD "") ".hevc"
            let fresh1 := orc.fresh.tail
            let paths : Paths := { input := input, output := output, temp := temp }
            match stream.pix_fmt with
            | none => (ev0, some (.caught "TypeError"))
            | some pf =>
                match parse_pix_fmt pf with
                | .error .formatError => (ev0, some (.caught "Input must be YUV"))
                | .error .typeError => (ev0, some (.caught "TypeError"))
                | .ok fmt =>
                    match pre_hdr stream.side_data_list frame.side_data_list input
                        fresh1 orc.xtract with
                    | .error (.reject m) => (ev0, some (.caught m))
                    | .error (.thrown _) => (ev0, some .hangs)
                    | .ok scan =>
                        let ev1 := ev0 ++ scan.events
                        let paths := { paths with dv := scan.dv, plus := scan.plus }
                        let fresh2 := scan.fresh
                        let extra_tags := build_track_tags stream
                        let x265_args :=
                          build_x265_args opts.keepBit opts.preset opts.crf stream fmt
                            scan.out paths.temp opts.args
                        let fps0 := parse_slash_number stream.r_frame_rate
                        let interlaced :=
                          optStrTruthy stream.field_order ∧
                            stream.field_order ≠ some "progressive"
                        let ff_mid :=
                          ["-i", input, "-map", "0:v:0"] ++
                            (if interlaced then
                              ["-vf", "yadif=" ++ (if opts.doubleFps then "1" else "0")]
                            else [])
                        let fps :=
                          if interlaced ∧ opts.doubleFps then fps0.mul (.fin 2) else fps0
                        if optStrTruthy opts.time ∧ (jsNumber (opts.time.getD "")).isNaN then
                          (ev1, some (.errReturn "Invalid time format"))
                        else
                          let ff_args :=
                            ff_mid ++
                              (if optStrTruthy opts.time then ["-t", opts.time.getD ""]
                               else []) ++
                              ["-f", "yuv4mpegpipe", "-strict", "-1", "-"]
                          let duration := get_duration stream d.format
                          let totFrames :=
                            jsCeil (JSNum.mul
                              (if optStrTruthy opts.time then jsNumber (opts.time.getD "")
                               else duration) fps)
                          let _ := totFrames
                          let ev2 := ev1 ++ [.spawn .ffmpeg ff_args, .spawn .x265 x265_args]
                          if orc.transcode_exit ≠ 0 then
                            (ev2, some (.errReturn
                              ("Transcode failed: " ++ toString orc.transcode_exit)))
                          else
                            let (pev, fresh3, pres) := post_hdr paths fresh2 orc.inject
                            let ev3 := ev2 ++ pev
                            match pres with
                            | .error m => (ev3, some (.caught m))
                            | .ok newTemp =>
                                let paths := { paths with temp := newTemp }
                                let audio :=
                                  if opts.opus then
                                    opus_loop input opts.opusBitrate orc audio_streams 0
                                      fresh3 ev3 [] []
                                  else .inl (ev3, [], [], fresh3)
                                match audio with
                                | .inr (evs, e) => (evs, some e)
                                | .inl (ev4, temps, aud_tags, _) =>
                                    let paths := { paths with audio_temp := temps }
                                    let margs := mkvmerge_args paths extra_tags aud_tags
                                    let ev5 := ev4 ++ [.spawn .mkvmerge margs]
                                    if orc.mkv_exit ≠ 0 then
                                      (ev5, some (.caught (jsTrim orc.mkv_stderr)))
                                    else
                                      (ev5 ++ [.remove paths.temp] ++
                                        temps.map (fun p => .remove p), none)

/-! ## Helper lemmas about the split model -/

theorem splitChar_ne_nil (c : Char) (l : List Char) : splitChar c l ≠ [] := by
  cases l with
  | nil => simp [splitChar]
  | cons x xs =>
      by_cases hx : x = c
      · simp [splitChar, hx]
      · simp only [splitChar, if_neg hx]
        cases h : splitChar c xs <;> simp

theorem splitChar_no_sep {c : Char} {l : List Char} (h : c ∉ l) :
    splitChar c l = [l] := by
  induction l with
  | nil => rfl
  | cons x xs ih =>
      have hx : ¬ x = c := fun e => h (e ▸ List.mem_cons_self x xs)
      have hxs : c ∉ xs := fun hm => h (List.mem_cons_of_mem _ hm)
      simp [splitChar, hx, ih hxs]

theorem splitChar_append {c : Char} {a b : List Char} (h : c ∉ a) :
    splitChar c (a ++ c :: b) = a :: splitChar c b := by
  induction a with
  | nil => simp [splitChar]
  | cons x xs ih =>
      have hx : ¬ x = c := fun e => h (e ▸ List.mem_cons_self x xs)
      have hxs : c ∉ xs := fun hm => h (List.mem_cons_of_mem _ hm)
      simp [splitChar, hx, ih hxs]

theorem splitChar_length (c : Char) (l : List Char) :
    (splitChar c l).length = l.count c + 1 := by
  induction l with
  | nil => simp [splitChar]
  | cons x xs ih =>
      by_cases hx : x = c
      · simp [splitChar, hx, ih, List.count_cons]
      · simp only [splitChar, if_neg hx]
        rcases h : splitChar c xs with _ | ⟨y, ys⟩
        · exact absurd h (splitChar_ne_nil c xs)
        · have := ih
          rw [h] at this
          simp only [List.length_cons] at this ⊢
          rw [List.count_cons]
          simp [hx, ← this]

/-! ## C4: rational parsing -/

/-- C4 (counterexample): the claim asserts that every string with zero `/`
separators yields the NaN sentinel, but `parse_slash_number` falls back to
`Number(input)` when the split has fewer than two parts, so the bare numeric
string `"5"` yields 5, not NaN. -/
theorem parse_slash_number_bare_numeric : parse_slash_number "5" = .fin 5 := by decide

/-- C4 (amended): splitting on `/`, a slash-free string falls back to its
JS numeric value; a two-part split with both parts numeric yields their JS
division (exactly `N ÷ D` for finite parts and nonzero `D`); a NaN part or
more than one `/` yields NaN. -/
theorem parse_slash_number_spec :
    (∀ a b : String, '/' ∉ a.toList → '/' ∉ b.toList →
      parse_slash_number (a ++ "/" ++ b) =
        if (jsNumber a).isNaN ∨ (jsNumber b).isNaN then .nan
        else (jsNumber a).div (jsNumber b)) ∧
    (∀ a b : String, (x y : ℚ) → '/' ∉ a.toList → '/' ∉ b.toList →
      jsNumber a = .fin x → jsNumber b = .fin y → y ≠ 0 →
      parse_slash_number (a ++ "/" ++ b) = .fin (x / y)) ∧
    (∀ s : String, '/' ∉ s.toList → parse_slash_number s = jsNumber s) ∧
    (∀ s : String, 2 ≤ s.toList.count '/' → parse_slash_number s = .nan) := by
  have key : ∀ a b : String, '/' ∉ a.toList → '/' ∉ b.toList →
      jsSplit (a ++ "/" ++ b) '/' = [a, b] := by
    intro a b ha hb
    have hdata : (a ++ "/" ++ b).toList = a.toList ++ '/' :: b.toList := by
      show (a ++ "/" ++ b).data = a.data ++ '/' :: b.data
      simp [String.data_append]
    simp only [jsSplit, hdata, splitChar_append ha, splitChar_no_sep hb]
    simp [jsSplit, List.map]
  refine ⟨?_, ?_, ?_, ?_⟩
  · intro a b ha hb
    simp only [parse_slash_number, key a b ha hb]
    by_cases h1 : (jsNumber a).isNaN <;> by_cases h2 : (jsNumber b).isNaN <;>
      simp [h1, h2, List.getD]
  · intro a b x y ha hb hx hy hy0
    simp only [parse_slash_number, key a b ha hb]
    simp [List.getD, hx, hy, JSNum.isNaN, JSNum.div, hy0]
  · intro s hs
    have : jsSplit s '/' = [s] := by
      simp only [jsSplit, splitChar_no_sep hs]
      simp
    simp [parse_slash_number, this]
  · intro s hs
    have hlen : (jsSplit s '/').length = s.toList.count '/' + 1 := by
      simp [jsSplit, splitChar_length]
    simp only [parse_slash_number, hlen]
    have hs' : 2 ≤ List.count '/' s.data := hs
    rw [if_neg (by omega), if_pos (Or.inl (by omega))]

/-- Witness for `parse_slash_number_spec` at `"24"/"6"`. -/
theorem parse_slash_number_spec_witness :
    parse_slash_number ("24" ++ "/" ++ "6") = .fin (4 : ℚ) := by
  have h := parse_slash_number_spec.2.1 "24" "6" 24 6 (by decide) (by decide)
    (by decide) (by decide) (by norm_num)
  rw [h]
  norm_num

/-! ## C6: pixel-format translation -/

/-- C6 (counterexample): the claim asserts that every format string
containing `"yuv"` yields a `{csp, depth}` record, but a string containing
`"yuv"` and no `"p"` (here `"yuv"` itself) makes `s[1]` undefined and the
`.replace` call on it throws a TypeError instead of producing a record. -/
theorem parse_pix_fmt_yuv_no_p : parse_pix_fmt "yuv" = .error .typeError := by decide

/-- C6 (amended): a format string containing `"yuv"` whose split on `"p"`
has at least two parts yields `csp = "i" ++ digits of part 0` and
`depth = digits of part 1, defaulting to "8" when empty`; a string without
`"yuv"` fails with the format error; a string with `"yuv"` but no `"p"`
throws a TypeError.  In particular `"yuv420p10le"` gives `{i420, 10}` and
`"yuv444p"` gives `{i444, 8}`. -/
theorem parse_pix_fmt_spec :
    (∀ s s0 s1 rest, jsIncludes s "yuv" = true → jsSplit s 'p' = s0 :: s1 :: rest →
      parse_pix_fmt s =
        .ok ⟨"i" ++ stripNonDigits s0,
             if stripNonDigits s1 = "" then "8" else stripNonDigits s1⟩) ∧
    (∀ s, jsIncludes s "yuv" = false → parse_pix_fmt s = .error .formatError) ∧
    (∀ s s0, jsIncludes s "yuv" = true → jsSplit s 'p' = [s0] →
      parse_pix_fmt s = .error .typeError) ∧
    parse_pix_fmt "yuv420p10le" = .ok ⟨"i420", "10"⟩ ∧
    parse_pix_fmt "yuv444p" = .ok ⟨"i444", "8"⟩ := by
  refine ⟨?_, ?_, ?_, by decide, by decide⟩
  · intro s s0 s1 rest hin hsp
    simp [parse_pix_fmt, hin, hsp]
  · intro s hin
    simp [parse_pix_fmt, hin]
  · intro s s0 hin hsp
    simp [parse_pix_fmt, hin, hsp]

/-- Witness for `parse_pix_fmt_spec` at `"yuv422p12le"`. -/
theorem parse_pix_fmt_spec_witness :
    parse_pix_fmt "yuv422p12le" =
      .ok ⟨"i" ++ stripNonDigits "yuv422",
           if stripNonDigits "12le" = "" then "8" else stripNonDigits "12le"⟩ :=
  parse_pix_fmt_spec.1 "yuv422p12le" "yuv422" "12le" [] (by decide) (by decide)

/-! ## C10: truthiness as presence test in parse_master_display -/

/-- C10: `parse_master_display` tests field presence by JS truthiness, so a
ten-field input whose fields are all present and numeric but one of which is
falsy — the empty string (present, and `Number("")` is 0, hence numeric by
the code's own NaN test), or the JSON number 0 — is rejected at the
missing-field throw site rather than formatted. -/
theorem parse_master_display_truthy_presence :
    (JField.fstr "" ≠ JField.absent) ∧ (jsNumber "").isNaN = false ∧
    parse_master_display
      { side_data_type := "Mastering display metadata",
        green_x := .fstr "13250/50000", green_y := .fstr "34500/50000",
        blue_x := .fstr "7500/50000", blue_y := .fstr "3000/50000",
        red_x := .fstr "34000/50000", red_y := .fstr "16000/50000",
        white_point_x := .fstr "15635/50000", white_point_y := .fstr "16450/50000",
        max_luminance := .fstr "10000000/10000", min_luminance := .fstr "" } =
      .error .missingField ∧
    parse_master_display
      { side_data_type := "Mastering display metadata",
        green_x := .fstr "13250/50000", green_y := .fstr "34500/50000",
        blue_x := .fstr "7500/50000", blue_y := .fstr "3000/50000",
        red_x := .fstr "34000/50000", red_y := .fstr "16000/50000",
        white_point_x := .fstr "15635/50000", white_point_y := .fstr "16450/50000",
        max_luminance := .fstr "10000000/10000", min_luminance := .fnum 0 } =
      .error .missingField := by
  refine ⟨by decide, by decide, by decide, by decide⟩

/-! ## C5: mastering-display translation -/

theorem mdField_fstr (s : String) (scale : ℚ) :
    mdField (.fstr s) scale =
      if s = "" then .error .missingField
      else if (parse_slash_number s).isNaN then .error .notNumeric
      else .ok (jsRound ((parse_slash_number s).mul (.fin scale))) := by
  by_cases h : s = "" <;> simp [mdField, JField.truthy, h]

/-- C5: for ten string-valued fields, all JS-truthy and parsing to finite
rationals, `parse_master_display` returns exactly the
`G(..)B(..)R(..)WP(..)L(..)` pattern with the chromaticity and white-point
values scaled by 50000 and the luminances by 10000, each rounded JS-style to
the nearest integer (`floor(x + 1/2)`); and it fails (with one of the two
`Error("this wrong")` sites) exactly when some field is missing in the JS
sense (falsy — absent or empty) or non-numeric (its parse is NaN).  Being a
function of its input it is deterministic, and the `Except` result is either
the complete formatted string or an error, never a partial string. -/
theorem parse_master_display_spec :
    (∀ (t : String) (mc ma : JField) (s0 s1 s2 s3 s4 s5 s6 s7 s8 s9 : String)
        (q0 q1 q2 q3 q4 q5 q6 q7 q8 q9 : ℚ),
      s0 ≠ "" → parse_slash_number s0 = .fin q0 →
      s1 ≠ "" → parse_slash_number s1 = .fin q1 →
      s2 ≠ "" → parse_slash_number s2 = .fin q2 →
      s3 ≠ "" → parse_slash_number s3 = .fin q3 →
      s4 ≠ "" → parse_slash_number s4 = .fin q4 →
      s5 ≠ "" → parse_slash_number s5 = .fin q5 →
      s6 ≠ "" → parse_slash_number s6 = .fin q6 →
      s7 ≠ "" → parse_slash_number s7 = .fin q7 →
      s8 ≠ "" → parse_slash_number s8 = .fin q8 →
      s9 ≠ "" → parse_slash_number s9 = .fin q9 →
      parse_master_display
        { side_data_type := t,
          green_x := .fstr s0, green_y := .fstr s1,
          blue_x := .fstr s2, blue_y := .fstr s3,
          red_x := .fstr s4, red_y := .fstr s5,
          white_point_x := .fstr s6, white_point_y := .fstr s7,
          max_luminance := .fstr s8, min_luminance := .fstr s9,
          max_content := mc, max_average := ma } =
        .ok ("G(" ++ toString ⌊q0 * 50000 + 1 / 2⌋ ++ "," ++
          toString ⌊q1 * 50000 + 1 / 2⌋ ++ ")B(" ++
          toString ⌊q2 * 50000 + 1 / 2⌋ ++ "," ++
          toString ⌊q3 * 50000 + 1 / 2⌋ ++ ")R(" ++
          toString ⌊q4 * 50000 + 1 / 2⌋ ++ "," ++
          toString ⌊q5 * 50000 + 1 / 2⌋ ++ ")WP(" ++
          toString ⌊q6 * 50000 + 1 / 2⌋ ++ "," ++
          toString ⌊q7 * 50000 + 1 / 2⌋ ++ ")L(" ++
          toString ⌊q8 * 10000 + 1 / 2⌋ ++ "," ++
          toString ⌊q9 * 10000 + 1 / 2⌋ ++ ")")) ∧
    (∀ (t : String) (mc ma : JField) (s0 s1 s2 s3 s4 s5 s6 s7 s8 s9 : String),
      (∃ e, parse_master_display
        { side_data_type := t,
          green_x := .fstr s0, green_y := .fstr s1,
          blue_x := .fstr s2, blue_y := .fstr s3,
          red_x := .fstr s4, red_y := .fstr s5,
          white_point_x := .fstr s6, white_point_y := .fstr s7,
          max_luminance := .fstr s8, min_luminance := .fstr s9,
          max_content := mc, max_average := ma } = .error e) ↔
      ((s0 = "" ∨ (parse_slash_number s0).isNaN = true) ∨
       (s1 = "" ∨ (parse_slash_number s1).isNaN = true) ∨
       (s2 = "" ∨ (parse_slash_number s2).isNaN = true) ∨
       (s3 = "" ∨ (parse_slash_number s3).isNaN = true) ∨
       (s4 = "" ∨ (parse_slash_number s4).isNaN = true) ∨
       (s5 = "" ∨ (parse_slash_number s5).isNaN = true) ∨
       (s6 = "" ∨ (parse_slash_number s6).isNaN = true) ∨
       (s7 = "" ∨ (parse_slash_number s7).isNaN = true) ∨
       (s8 = "" ∨ (parse_slash_number s8).isNaN = true) ∨
       (s9 = "" ∨ (parse_slash_number s9).isNaN = true))) := by
  constructor
  · intro t mc ma s0 s1 s2 s3 s4 s5 s6 s7 s8 s9 q0 q1 q2 q3 q4 q5 q6 q7 q8 q9
    intro h0 e0 h1 e1 h2 e2 h3 e3 h4 e4 h5 e5 h6 e6 h7 e7 h8 e8 h9 e9
    simp [parse_master_display, mdField_fstr, h0, h1, h2, h3, h4, h5, h6, h7, h8, h9,
      e0, e1, e2, e3, e4, e5, e6, e7, e8, e9, JSNum.isNaN, JSNum.mul, jsRound,
      JSIntVal.render, Bind.bind, Except.bind, Pure.pure, Except.pure]
  · intro t mc ma s0 s1 s2 s3 s4 s5 s6 s7 s8 s9
    by_cases h0 : s0 = ""
    · simp_all [parse_master_display, mdField_fstr, Bind.bind, Except.bind, Pure.pure, Except.pure]
    by_cases n0 : (parse_slash_number s0).isNaN = true
    · simp_all [parse_master_display, mdField_fstr, Bind.bind, Except.bind, Pure.pure, Except.pure]
    by_cases h1 : s1 = ""
    · simp_all [parse_master_display, mdField_fstr, Bind.bind, Except.bind, Pure.pure, Except.pure]
    by_cases n1 : (parse_slash_number s1).isNaN = true
    · simp_all [parse_master_display, mdField_fstr, Bind.bind, Except.bind, Pure.pure, Except.pure]
    by_cases h2 : s2 = ""
    · simp_all [parse_master_display, mdField_fstr, Bind.bind, Except.bind, Pure.pure, Except.pure]
    by_cases n2 : (parse_slash_number s2).isNaN = true
    · simp_all [parse_master_display, mdField_fstr, Bind.bind, Except.bind, Pure.pure, Except.pure]
    by_cases h3 : s3 = ""
    · simp_all [parse_master_display, mdField_fstr, Bind.bind, Except.bind, Pure.pure, Except.pure]
    by_cases n3 : (parse_slash_number s3).isNaN = true
    · simp_all [parse_master_display, mdField_fstr, Bind.bind, Except.bind, Pure.pure, Except.pure]
    by_cases h4 : s4 = ""
    · simp_all [parse_master_display, mdField_fstr, Bind.bind, Except.bind, Pure.pure, Except.pure]
    by_cases n4 : (parse_slash_number s4).isNaN = true
    · simp_all [parse_master_display, mdField_fstr, Bind.bind, Except.bind, Pure.pure, Except.pure]
    by_cases h5 : s5 = ""
    · simp_all [parse_master_display, mdField_fstr, Bind.bind, Except.bind, Pure.pure, Except.pure]
    by_cases n5 : (parse_slash_number s5).isNaN = true
    · simp_all [parse_master_display, mdField_fstr, Bind.bind, Except.bind, Pure.pure, Except.pure]
    by_cases h6 : s6 = ""
    · simp_all [parse_master_display, mdField_fstr, Bind.bind, Except.bind, Pure.pure, Except.pure]
    by_cases n6 : (parse_slash_number s6).isNaN = true
    · simp_all [parse_master_display, mdField_fstr, Bind.bind, Except.bind, Pure.pure, Except.pure]
    by_cases h7 : s7 = ""
    · simp_all [parse_master_display, mdField_fstr, Bind.bind, Except.bind, Pure.pure, Except.pure]
    by_cases n7 : (parse_slash_number s7).isNaN = true
    · simp_all [parse_master_display, mdField_fstr, Bind.bind, Except.bind, Pure.pure, Except.pure]
    by_cases h8 : s8 = ""
    · simp_all [parse_master_display, mdField_fstr, Bind.bind, Except.bind, Pure.pure, Except.pure]
    by_cases n8 : (parse_slash_number s8).isNaN = true
    · simp_all [parse_master_display, mdField_fstr, Bind.bind, Except.bind, Pure.pure, Except.pure]
    by_cases h9 : s9 = ""
    · simp_all [parse_master_display, mdField_fstr, Bind.bind, Except.bind, Pure.pure, Except.pure]
    by_cases n9 : (parse_slash_number s9).isNaN = true
    · simp_all [parse_master_display, mdField_fstr, Bind.bind, Except.bind, Pure.pure, Except.pure]
    simp_all [parse_master_display, mdField_fstr, Bind.bind, Except.bind, Pure.pure, Except.pure]

/-- Witness for `parse_master_display_spec` at a concrete BT.2020/HDR10
record. -/
theorem parse_master_display_spec_witness :
    parse_master_display
      { side_data_type := "Mastering display metadata",
        green_x := .fstr "13250/50000", green_y := .fstr "34500/50000",
        blue_x := .fstr "7500/50000", blue_y := .fstr "3000/50000",
        red_x := .fstr "34000/50000", red_y := .fstr "16000/50000",
        white_point_x := .fstr "15635/50000", white_point_y := .fstr "16450/50000",
        max_luminance := .fstr "10000000/10000", min_luminance := .fstr "1/10000" } =
      .ok "G(13250,34500)B(7500,3000)R(34000,16000)WP(15635,16450)L(10000000,1)" := by
  have h := parse_master_display_spec.1 "Mastering display metadata" .absent .absent
    "13250/50000" "34500/50000" "7500/50000" "3000/50000" "34000/50000" "16000/50000"
    "15635/50000" "16450/50000" "10000000/10000" "1/10000"
    (13250 / 50000) (34500 / 50000) (7500 / 50000) (3000 / 50000) (34000 / 50000)
    (16000 / 50000) (15635 / 50000) (16450 / 50000) (10000000 / 10000) (1 / 10000)
    (by decide) (by decide) (by decide) (by decide) (by decide) (by decide)
    (by decide) (by decide) (by decide) (by decide) (by decide) (by decide)
    (by decide) (by decide) (by decide) (by decide) (by decide) (by decide)
    (by decide) (by decide)
  rw [h]
  decide

/-! ## C3: duration resolution -/

/-- C3 (counterexample): the claim asserts that when the stream has no
duration and no duration-like tag, the container-level duration is returned;
but with no tags object at all the scanning loop never runs, so the
container duration (truthy `"5"` here) is never consulted and the result is
NaN. -/
theorem get_duration_no_tags_ignores_format :
    get_duration { codec_type := "video" } { duration := some "5" } = .nan ∧
    optStrTruthy (FormatObj.duration { duration := some "5" }) = true := by
  refine ⟨by decide, by decide⟩

/-- C3 (amended): a truthy stream duration is preferred; with no tags object
(or an empty one) the result is NaN even when a container duration exists;
when tag entries exist they are scanned in order, a first entry whose key
starts (case-insensitively) with `"duration"` yields its value parsed as an
epoch-anchored timestamp divided by 1000, and a first entry whose key does
not yields the container duration whenever that is truthy — regardless of
any duration-like tags further down. -/
theorem get_duration_spec :
    (∀ (st : Stream) (fm : FormatObj) (s : String),
      st.duration = some s → s ≠ "" → get_duration st fm = jsNumber s) ∧
    (∀ (st : Stream) (fm : FormatObj),
      optStrTruthy st.duration = false → (st.tags = none ∨ st.tags = some []) →
      get_duration st fm = .nan) ∧
    (∀ (st : Stream) (fm : FormatObj) (k v : String)
        (rest : List (String × String)),
      optStrTruthy st.duration = false → st.tags = some ((k, v) :: rest) →
      jsStartsWith (jsToLower k) "duration" = true →
      get_duration st fm = JSNum.div (jsDateParseEpochTime v) (.fin 1000)) ∧
    (∀ (st : Stream) (fm : FormatObj) (k v : String)
        (rest : List (String × String)),
      optStrTruthy st.duration = false → st.tags = some ((k, v) :: rest) →
      jsStartsWith (jsToLower k) "duration" = false →
      optStrTruthy fm.duration = true →
      get_duration st fm = jsNumber (fm.duration.getD "")) := by
  refine ⟨?_, ?_, ?_, ?_⟩
  · intro st fm s hd hne
    simp [get_duration, optStrTruthy, hd, hne]
  · intro st fm hd htags
    rcases htags with h | h <;> simp [get_duration, get_duration_scan, hd, h]
  · intro st fm k v rest hd htags hk
    simp [get_duration, get_duration_scan, hd, htags, hk]
  · intro st fm k v rest hd htags hk hfd
    simp [get_duration, get_duration_scan, hd, htags, hk, hfd]

/-- Witness for `get_duration_spec`: the container duration is returned when
the first tag is not duration-like, even though a duration tag follows. -/
theorem get_duration_spec_witness :
    get_duration
      { codec_type := "video",
        tags := some [("language", "eng"), ("DURATION", "00:01:00")] }
      { duration := some "5" } = .fin 5 := by
  have h := get_duration_spec.2.2.2
    { codec_type := "video",
      tags := some [("language", "eng"), ("DURATION", "00:01:00")] }
    { duration := some "5" } "language" "eng" [("DURATION", "00:01:00")]
    (by decide) rfl (by decide) (by decide)
  rw [h]
  decide

/-! ## C7: rolling-average ETA -/

theorem x265_window_push_length (avg : List ℚ) (fps : ℚ) :
    (x265_window_push avg fps).length =
      if avg.length = 500 then 500 else avg.length + 1 := by
  by_cases h : avg.length = 500
  · have hlen : (x265_window_push avg fps).length = avg.length - 1 + 1 := by
      simp [x265_window_push, h, List.length_tail]
    rw [hlen, if_pos h]
    omega
  · simp [x265_window_push, h]

theorem x265_window_push_le (avg : List ℚ) (fps : ℚ) (h : avg.length ≤ 500) :
    (x265_window_push avg fps).length ≤ 500 := by
  rw [x265_window_push_length]
  by_cases h5 : avg.length = 500
  · simp [h5]
  · simp [h5]
    omega

theorem x265_window_run_le_aux (frames : JSNum) :
    ∀ (chunks : List (Option X265Sample)) (avg : List ℚ), avg.length ≤ 500 →
      (chunks.foldl (fun a c => (x265_progress_step frames a c).1) avg).length ≤ 500 := by
  intro chunks
  induction chunks with
  | nil => intro avg h; simpa using h
  | cons c rest ih =>
      intro avg h
      rcases c with _ | smp
      · exact ih avg h
      · exact ih _ (x265_window_push_le avg smp.fps h)

theorem x265_push_all_const {avg : List ℚ} {R : ℚ} (h : ∀ x ∈ avg, x = R) :
    ∀ x ∈ x265_window_push avg R, x = R := by
  intro x hx
  rcases List.mem_append.1 hx with hm | hm
  · by_cases h5 : avg.length = 500
    · simp only [x265_window_push, if_pos h5] at hm
      exact h x (List.mem_of_mem_tail hm)
    · simp only [x265_window_push, if_neg h5] at hm
      exact h x hm
  · simpa using hm

theorem x265_fold_all_const (frames : JSNum) (R : ℚ) :
    ∀ (samples : List X265Sample) (avg : List ℚ),
      (∀ s ∈ samples, s.fps = R) → (∀ x ∈ avg, x = R) →
      ∀ x ∈ samples.foldl (fun a s => (x265_progress_step frames a (some s)).1) avg,
        x = R := by
  intro samples
  induction samples with
  | nil => intro avg _ ha; simpa using ha
  | cons s rest ih =>
      intro avg hs ha
      have hsR : s.fps = R := hs s (List.mem_cons_self s rest)
      have hstep : ∀ x ∈ x265_window_push avg s.fps, x = R := by
        rw [hsR]; exact x265_push_all_const ha
      exact ih _ (fun t ht => hs t (List.mem_cons_of_mem _ ht)) hstep

theorem x265_fold_ne_nil (frames : JSNum) :
    ∀ (samples : List X265Sample) (avg : List ℚ), samples ≠ [] →
      samples.foldl (fun a s => (x265_progress_step frames a (some s)).1) avg ≠ [] := by
  intro samples
  induction samples with
  | nil => intro avg h; exact absurd rfl h
  | cons s rest ih =>
      intro avg _
      rcases Decidable.em (rest = []) with h | h
      · subst h
        simp [x265_progress_step, x265_window_push]
      · exact ih _ h

theorem foldl_add_all_const {R : ℚ} :
    ∀ (w : List ℚ) (a : ℚ), (∀ x ∈ w, x = R) →
      w.foldl (· + ·) a = a + R * w.length := by
  intro w
  induction w with
  | nil => intro a _; simp
  | cons x xs ih =>
      intro a h
      have hx : x = R := h x (List.mem_cons_self x xs)
      have := ih (a + x) (fun t ht => h t (List.mem_cons_of_mem _ ht))
      rw [List.foldl_cons, this, hx]
      simp only [List.length_cons]
      push_cast
      ring

theorem average_of_all_const {w : List ℚ} {R : ℚ} (hw : w ≠ [])
    (h : ∀ x ∈ w, x = R) : average_of w = .fin R := by
  have hsum : w.foldl (· + ·) 0 = R * w.length := by
    simpa using foldl_add_all_const w 0 h
  have hlen : (w.length : ℚ) ≠ 0 := by
    have : 0 < w.length := List.length_pos.2 hw
    exact_mod_cast Nat.pos_iff_ne_zero.1 this
  simp only [average_of, hsum, JSNum.div, if_neg hlen]
  congr 1
  field_simp

/-- C7: the rolling window of rate samples in the x265 progress handler
never exceeds 500 entries; the oldest entry is shifted off exactly when a
new sample arrives with the window holding 500; feeding more than 500
matching samples of constant rate R leaves the smoothed (arithmetic-mean)
rate at exactly R; and every matching sample prints the ETA
`(total_frames - done_frames) / mean`, rounded and rendered `HH:MM:SS` by
`toHHMMSS`. -/
theorem x265_rolling_eta_spec :
    (∀ (frames : JSNum) (chunks : List (Option X265Sample)),
      (x265_window_run frames chunks).length ≤ 500) ∧
    (∀ (avg : List ℚ) (fps : ℚ), avg.length = 500 →
      x265_window_push avg fps = avg.tail ++ [fps] ∧
        (x265_window_push avg fps).length = 500) ∧
    (∀ (avg : List ℚ) (fps : ℚ), avg.length ≠ 500 →
      x265_window_push avg fps = avg ++ [fps]) ∧
    (∀ (frames : JSNum) (R : ℚ) (samples : List X265Sample),
      500 < samples.length → (∀ s ∈ samples, s.fps = R) →
      average_of (x265_window_run frames (samples.map some)) = .fin R) ∧
    (∀ (frames : JSNum) (avg : List ℚ) (smp : X265Sample),
      (x265_progress_step frames avg (some smp)).2 =
        some (toHHMMSS (jsRound (JSNum.div
          (JSNum.sub frames (.fin smp.doneFrames))
          (average_of (x265_window_push avg smp.fps)))).toNum)) := by
  refine ⟨?_, ?_, ?_, ?_, ?_⟩
  · intro frames chunks
    exact x265_window_run_le_aux frames chunks [] (by simp)
  · intro avg fps h
    constructor
    · simp [x265_window_push, h]
    · rw [x265_window_push_length]
      simp [h]
  · intro avg fps h
    simp [x265_window_push, h]
  · intro frames R samples hlen hR
    have hmap : x265_window_run frames (samples.map some) =
        samples.foldl (fun a s => (x265_progress_step frames a (some s)).1) [] := by
      simp [x265_window_run, List.foldl_map]
    rw [hmap]
    have hne : samples ≠ [] := by
      intro h; rw [h] at hlen; simp at hlen
    exact average_of_all_const (x265_fold_ne_nil frames samples [] hne)
      (x265_fold_all_const frames R samples [] hR (by simp))
  · intro frames avg smp
    rfl

/-- Witness for `x265_rolling_eta_spec`: 501 constant-rate samples keep the
smoothed rate at 30. -/
theorem x265_rolling_eta_spec_witness :
    average_of (x265_window_run (.fin 200000)
      ((List.replicate 501 (⟨100, 30, 5000⟩ : X265Sample)).map some)) = .fin 30 :=
  x265_rolling_eta_spec.2.2.2.1 (.fin 200000) 30
    (List.replicate 501 ⟨100, 30, 5000⟩) (by simp)
    (fun s hs => by rw [List.eq_of_mem_replicate hs])

/-! ## C8: output bit-depth promotion policy -/

/-- C8: with the parsed pixel-format depth `"8"` and `--keep-bit` unset the
encoder argument list contains the adjacent pair `--output-depth 10` and no
`--aq-mode`; with `--keep-bit` set it contains `--output-depth 8` together
with `--aq-mode 3`; for any other parsed depth it contains `--output-depth
<depth>` and no `--aq-mode` regardless of `--keep-bit`.  The hypotheses pin
the claim's scope: no user-supplied extra x265 arguments, and none of the
other argument sources colliding with the literal `--aq-mode` token. -/
theorem output_depth_policy :
    ∀ (keep : Bool) (preset crf : String) (st : Stream) (fmt : PixFmt)
      (hdr : List String) (out : String),
      "--aq-mode" ∉ build_color_args st → "--aq-mode" ∉ hdr →
      preset ≠ "--aq-mode" → crf ≠ "--aq-mode" → out ≠ "--aq-mode" →
      fmt.depth ≠ "--aq-mode" →
      ((fmt.depth = "8" →
        (["--output-depth", "10"] <:+:
          build_x265_args false preset crf st fmt hdr out none) ∧
        "--aq-mode" ∉ build_x265_args false preset crf st fmt hdr out none ∧
        (["--output-depth", "8"] <:+:
          build_x265_args true preset crf st fmt hdr out none) ∧
        (["--aq-mode", "3"] <:+:
          build_x265_args true preset crf st fmt hdr out none)) ∧
      (fmt.depth ≠ "8" →
        (["--output-depth", fmt.depth] <:+:
          build_x265_args keep preset crf st fmt hdr out none) ∧
        "--aq-mode" ∉ build_x265_args keep preset crf st fmt hdr out none)) := by
  intro keep preset crf st fmt hdr out hc hh hp hcrf ho hd
  constructor
  · intro h8
    refine ⟨?_, ?_, ?_, ?_⟩
    · exact ⟨["--input", "-", "--y4m"],
        build_color_args st ++ hdr ++
          ["--preset", preset, "--crf", crf, "--output", out] ++
          build_user_args none,
        by simp [build_x265_args, build_depth_args, build_user_args, h8]⟩
    · simp only [build_x265_args, build_depth_args, build_user_args, h8,
        List.mem_append, optStrTruthy]
      simp [hc, hh, Ne.symm hp, Ne.symm hcrf, Ne.symm ho]
    · exact ⟨["--input", "-", "--y4m"],
        ["--aq-mode", "3"] ++ build_color_args st ++ hdr ++
          ["--preset", preset, "--crf", crf, "--output", out] ++
          build_user_args none,
        by simp [build_x265_args, build_depth_args, build_user_args, h8]⟩
    · exact ⟨["--input", "-", "--y4m", "--output-depth", "8"],
        build_color_args st ++ hdr ++
          ["--preset", preset, "--crf", crf, "--output", out] ++
          build_user_args none,
        by simp [build_x265_args, build_depth_args, build_user_args, h8]⟩
  · intro h8
    have hdep : build_depth_args keep fmt.depth = ["--output-depth", fmt.depth] := by
      cases keep <;> simp [build_depth_args, h8]
    refine ⟨?_, ?_⟩
    · exact ⟨["--input", "-", "--y4m"],
        build_color_args st ++ hdr ++
          ["--preset", preset, "--crf", crf, "--output", out] ++
          build_user_args none,
        by simp [build_x265_args, hdep, build_user_args]⟩
    · simp only [build_x265_args, hdep, build_user_args, List.mem_append, optStrTruthy]
      simp [hc, hh, Ne.symm hp, Ne.symm hcrf, Ne.symm ho, Ne.symm hd]

/-- Witness for `output_depth_policy` at a plain 8-bit 4:2:0 input with no
color metadata, no HDR arguments and default quality options. -/
theorem output_depth_policy_witness :
    (["--output-depth", "10"] <:+:
      build_x265_args false "medium" "23" { codec_type := "video" } ⟨"i420", "8"⟩
        [] "o.hevc" none) ∧
    "--aq-mode" ∉
      build_x265_args false "medium" "23" { codec_type := "video" } ⟨"i420", "8"⟩
        [] "o.hevc" none := by
  have h := output_depth_policy false "medium" "23" { codec_type := "video" }
    ⟨"i420", "8"⟩ [] "o.hevc" (by decide) (by decide) (by decide) (by decide)
    (by decide) (by decide)
  exact ⟨(h.1 rfl).1, (h.1 rfl).2.1⟩

/-! ## C2: injection order and artifact lifecycle in post_hdr -/

/-- C2: when both the Dolby-Vision and the HDR10+ sidecars are set, the
`Object.entries` walk meets `dv` before `plus`, so the Dolby-Vision
injection is spawned first; after each successful injection the prior
elementary stream and the consumed sidecar are removed and the current
pointer advances to the freshly generated `.hevc` artifact, the second of
which is the value `post_hdr` returns. -/
theorem post_hdr_dv_before_plus :
    ∀ (inp out temp a b : String) (ats : List String) (h1 h2 : String)
      (hexes : List String) (orc : ToolOracle) (s1 s2 : String),
      a ≠ "" → b ≠ "" →
      orc .dovi ["inject-rpu", "--rpu-in", a, "-i", temp, "-o",
        generate_temp_name h1 ".hevc"] = (0, s1) →
      orc .hdr10plus ["inject", "-j", b, "-i", generate_temp_name h1 ".hevc", "-o",
        generate_temp_name h2 ".hevc"] = (0, s2) →
      post_hdr { input := inp, output := out, temp := temp, dv := some a,
                 plus := some b, audio_temp := ats } (h1 :: h2 :: hexes) orc =
        ([.spawn .dovi ["inject-rpu", "--rpu-in", a, "-i", temp, "-o",
            generate_temp_name h1 ".hevc"],
          .remove temp, .remove a,
          .spawn .hdr10plus ["inject", "-j", b, "-i", generate_temp_name h1 ".hevc",
            "-o", generate_temp_name h2 ".hevc"],
          .remove (generate_temp_name h1 ".hevc"), .remove b],
         hexes, .ok (generate_temp_name h2 ".hevc")) := by
  intro inp out temp a b ats h1 h2 hexes orc s1 s2 ha hb ho1 ho2
  simp [post_hdr, Paths.entries, post_hdr_loop, PathVal.truthyStr, ff_inject,
    ha, hb, ho1, ho2]

/-- Witness for `post_hdr_dv_before_plus` with an always-succeeding tool
oracle. -/
theorem post_hdr_dv_before_plus_witness :
    post_hdr { input := "in.mkv", output := "out.mkv", temp := "t.hevc",
               dv := some "dv.bin", plus := some "plus.json" }
        ["aa", "bb"] (fun _ _ => (0, "")) =
      ([.spawn .dovi ["inject-rpu", "--rpu-in", "dv.bin", "-i", "t.hevc", "-o",
          generate_temp_name "aa" ".hevc"],
        .remove "t.hevc", .remove "dv.bin",
        .spawn .hdr10plus ["inject", "-j", "plus.json", "-i",
          generate_temp_name "aa" ".hevc", "-o", generate_temp_name "bb" ".hevc"],
        .remove (generate_temp_name "aa" ".hevc"), .remove "plus.json"],
       [], .ok (generate_temp_name "bb" ".hevc")) :=
  post_hdr_dv_before_plus "in.mkv" "out.mkv" "t.hevc" "dv.bin" "plus.json" [] "aa" "bb"
    [] (fun _ _ => (0, "")) "" "" (by decide) (by decide) rfl rfl

/-! ## C1: first-occurrence scan in pre_hdr -/

/-- Left-biased choice, as the `done` flags make the scan behave. -/
def optOr {α : Type} (a b : Option α) : Option α :=
  match a with
  | some x => some x
  | none => b

theorem optOr_none_left {α : Type} (b : Option α) : optOr none b = b := rfl

theorem optOr_none_right {α : Type} (a : Option α) : optOr a none = a := by
  cases a <;> rfl

theorem find_first {l : List SideData} {t : String} {r : SideData}
    (h : l.find? (fun a => a.side_data_type = t) = some r) :
    ∃ l1 l2, l = l1 ++ r :: l2 ∧ r.side_data_type = t ∧
      ∀ x ∈ l1, x.side_data_type ≠ t := by
  induction l with
  | nil => simp at h
  | cons a as ih =>
      by_cases hpa : a.side_data_type = t
      · rw [List.find?_cons_of_pos _ (by simpa using hpa)] at h
        obtain rfl : a = r := by simpa using h
        exact ⟨[], as, by simp, hpa, by simp⟩
      · rw [List.find?_cons_of_neg _ (by simpa using hpa)] at h
        obtain ⟨l1, l2, hl, hr, hnone⟩ := ih h
        refine ⟨a :: l1, l2, by simp [hl], hr, ?_⟩
        intro x hx
        rcases List.mem_cons.1 hx with rfl | hx'
        · exact hpa
        · exact hnone x hx'

theorem scan_md_spec (e : Option (List SideData)) (st : ScanSt)
    (hmd : st.done0 = false → ∀ r, find e mdType = some r →
      ∃ s, parse_master_display r = .ok s) :
    ∃ out2, scan_md e st = .ok { st with
      done0 := st.done0 || (find e mdType).isSome,
      used0 := if st.done0 then st.used0 else optOr (find e mdType) st.used0,
      out := out2 } := by
  obtain ⟨d0, d1, d2, d3, u0, u1, u2, u3, o, dvf, pl, ev, fr⟩ := st
  rcases hfind : find e mdType with _ | r
  · exact ⟨o, by simp [scan_md, hfind, optOr]⟩
  · cases d0 with
    | false =>
        obtain ⟨s, hs⟩ := hmd rfl r hfind
        exact ⟨o ++ ["--master-display", s], by simp [scan_md, hfind, hs, optOr]⟩
    | true => exact ⟨o, by simp [scan_md, hfind, optOr]⟩

theorem scan_cll_spec (e : Option (List SideData)) (st : ScanSt) :
    ∃ out2, scan_cll e st = { st with
      done1 := st.done1 || (find e cllType).isSome,
      used1 := if st.done1 then st.used1 else optOr (find e cllType) st.used1,
      out := out2 } := by
  obtain ⟨d0, d1, d2, d3, u0, u1, u2, u3, o, dvf, pl, ev, fr⟩ := st
  rcases hfind : find e cllType with _ | r
  · exact ⟨o, by simp [scan_cll, hfind, optOr]⟩
  · cases d1 with
    | false =>
        exact ⟨o ++ ["--max-cll", r.max_content.render ++ "," ++ r.max_average.render],
          by simp [scan_cll, hfind, optOr]⟩
    | true => exact ⟨o, by simp [scan_cll, hfind, optOr]⟩

theorem scan_dovi_spec (orc : ToolOracle) (input : String)
    (e : Option (List SideData)) (st : ScanSt)
    (hx : ∀ a, (orc .dovi a).1 = 0) :
    ∃ dv2 fr2 ev2, scan_dovi orc input e st = .ok { st with
      done2 := st.done2 || (find e doviType).isSome,
      used2 := if st.done2 then st.used2 else optOr (find e doviType) st.used2,
      dv := dv2, fresh := fr2, events := ev2 } := by
  obtain ⟨d0, d1, d2, d3, u0, u1, u2, u3, o, dvf, pl, ev, fr⟩ := st
  rcases hfind : find e doviType with _ | r
  · exact ⟨dvf, fr, ev, by simp [scan_dovi, hfind, optOr]⟩
  · cases d2 with
    | false =>
        rcases horc : orc .dovi (jsSplit ("extract-rpu -o " ++
          generate_temp_name (fr.head?.getD "") ".bin" ++ " -") ' ') with ⟨c, msg⟩
        have hc0 : c = 0 := by
          have h := hx (jsSplit ("extract-rpu -o " ++
            generate_temp_name (fr.head?.getD "") ".bin" ++ " -") ' ')
          rw [horc] at h
          simpa using h
        subst hc0
        refine ⟨some (generate_temp_name (fr.head?.getD "") ".bin"), fr.tail,
          ev ++ [.spawn .ffmpeg ["-i", input, "-map", "0:v:0?", "-c:v", "copy",
            "-bsf:v", "hevc_mp4toannexb", "-f", "hevc", "-"],
            .spawn .dovi (jsSplit ("extract-rpu -o " ++
              generate_temp_name (fr.head?.getD "") ".bin" ++ " -") ' ')], ?_⟩
        simp [scan_dovi, hfind, ff_xtract, horc, optOr]
    | true => exact ⟨dvf, fr, ev, by simp [scan_dovi, hfind, optOr]⟩

theorem scan_plus_spec (orc : ToolOracle) (input : String)
    (e : Option (List SideData)) (st : ScanSt)
    (hx : ∀ a, (orc .hdr10plus a).1 = 0) :
    ∃ pl2 fr2 ev2, scan_plus orc input e st = .ok { st with
      done3 := st.done3 || (find e plusType).isSome,
      used3 := if st.done3 then st.used3 else optOr (find e plusType) st.used3,
      plus := pl2, fresh := fr2, events := ev2 } := by
  obtain ⟨d0, d1, d2, d3, u0, u1, u2, u3, o, dvf, pl, ev, fr⟩ := st
  rcases hfind : find e plusType with _ | r
  · exact ⟨pl, fr, ev, by simp [scan_plus, hfind, optOr]⟩
  · cases d3 with
    | false =>
        rcases horc : orc .hdr10plus (jsSplit ("extract -o " ++
          generate_temp_name (fr.head?.getD "") ".json" ++ " -") ' ') with ⟨c, msg⟩
        have hc0 : c = 0 := by
          have h := hx (jsSplit ("extract -o " ++
            generate_temp_name (fr.head?.getD "") ".json" ++ " -") ' ')
          rw [horc] at h
          simpa using h
        subst hc0
        refine ⟨some (generate_temp_name (fr.head?.getD "") ".json"), fr.tail,
          ev ++ [.spawn .ffmpeg ["-i", input, "-map", "0:v:0?", "-c:v", "copy",
            "-bsf:v", "hevc_mp4toannexb", "-f", "hevc", "-"],
            .spawn .hdr10plus (jsSplit ("extract -o " ++
              generate_temp_name (fr.head?.getD "") ".json" ++ " -") ' ')], ?_⟩
        simp [scan_plus, hfind, ff_xtract, horc, optOr]
    | true => exact ⟨pl, fr, ev, by simp [scan_plus, hfind, optOr]⟩

theorem find_of_skip {e : Option (List SideData)} (t : String)
    (h : scan_skip e = true) : find e t = none := by
  rcases e with _ | l
  · rfl
  · simp only [scan_skip, decide_eq_true_eq] at h
    rcases l with _ | ⟨a, as⟩
    · simp [find]
    · simp at h

theorem scan_coll_spec (orc : ToolOracle) (input : String)
    (e : Option (List SideData)) (st : ScanSt)
    (hx : ∀ t a, (orc t a).1 = 0)
    (hmd : st.done0 = false → ∀ r, find e mdType = some r →
      ∃ s, parse_master_display r = .ok s) :
    ∃ st', scan_coll orc input e st = .ok st' ∧
      st'.done0 = (st.done0 || (find e mdType).isSome) ∧
      st'.used0 = (if st.done0 then st.used0 else optOr (find e mdType) st.used0) ∧
      st'.done1 = (st.done1 || (find e cllType).isSome) ∧
      st'.used1 = (if st.done1 then st.used1 else optOr (find e cllType) st.used1) ∧
      st'.done2 = (st.done2 || (find e doviType).isSome) ∧
      st'.used2 = (if st.done2 then st.used2 else optOr (find e doviType) st.used2) ∧
      st'.done3 = (st.done3 || (find e plusType).isSome) ∧
      st'.used3 = (if st.done3 then st.used3 else optOr (find e plusType) st.used3) := by
  by_cases hguard : scan_skip e = true
  · refine ⟨st, ?_, ?_, ?_, ?_, ?_, ?_, ?_, ?_, ?_⟩
    · simp [scan_coll, hguard]
    all_goals
      rw [find_of_skip _ hguard]
      simp [optOr]
  · obtain ⟨o2, hA⟩ := scan_md_spec e st hmd
    generalize hGA : ({ st with
      done0 := st.done0 || (find e mdType).isSome,
      used0 := if st.done0 then st.used0 else optOr (find e mdType) st.used0,
      out := o2 } : ScanSt) = stA at hA
    have a0 : stA.done0 = (st.done0 || (find e mdType).isSome) := by rw [← hGA]
    have a0u : stA.used0 =
        (if st.done0 then st.used0 else optOr (find e mdType) st.used0) := by rw [← hGA]
    have a1 : stA.done1 = st.done1 := by rw [← hGA]
    have a1u : stA.used1 = st.used1 := by rw [← hGA]
    have a2 : stA.done2 = st.done2 := by rw [← hGA]
    have a2u : stA.used2 = st.used2 := by rw [← hGA]
    have a3 : stA.done3 = st.done3 := by rw [← hGA]
    have a3u : stA.used3 = st.used3 := by rw [← hGA]
    obtain ⟨o3, hB⟩ := scan_cll_spec e stA
    generalize hGB : ({ stA with
      done1 := stA.done1 || (find e cllType).isSome,
      used1 := if stA.done1 then stA.used1 else optOr (find e cllType) stA.used1,
      out := o3 } : ScanSt) = stB at hB
    have b0 : stB.done0 = stA.done0 := by rw [← hGB]
    have b0u : stB.used0 = stA.used0 := by rw [← hGB]
    have b1 : stB.done1 = (stA.done1 || (find e cllType).isSome) := by rw [← hGB]
    have b1u : stB.used1 =
        (if stA.done1 then stA.used1 else optOr (find e cllType) stA.used1) := by
      rw [← hGB]
    have b2 : stB.done2 = stA.done2 := by rw [← hGB]
    have b2u : stB.used2 = stA.used2 := by rw [← hGB]
    have b3 : stB.done3 = stA.done3 := by rw [← hGB]
    have b3u : stB.used3 = stA.used3 := by rw [← hGB]
    obtain ⟨dv2, frC, evC, hC⟩ := scan_dovi_spec orc input e stB (fun a => hx .dovi a)
    generalize hGC : ({ stB with
      done2 := stB.done2 || (find e doviType).isSome,
      used2 := if stB.done2 then stB.used2 else optOr (find e doviType) stB.used2,
      dv := dv2, fresh := frC, events := evC } : ScanSt) = stC at hC
    have c0 : stC.done0 = stB.done0 := by rw [← hGC]
    have c0u : stC.used0 = stB.used0 := by rw [← hGC]
    have c1 : stC.done1 = stB.done1 := by rw [← hGC]
    have c1u : stC.used1 = stB.used1 := by rw [← hGC]
    have c2 : stC.done2 = (stB.done2 || (find e doviType).isSome) := by rw [← hGC]
    have c2u : stC.used2 =
        (if stB.done2 then stB.used2 else optOr (find e doviType) stB.used2) := by
      rw [← hGC]
    have c3 : stC.done3 = stB.done3 := by rw [← hGC]
    have c3u : stC.used3 = stB.used3 := by rw [← hGC]
    obtain ⟨pl2, frD, evD, hD⟩ := scan_plus_spec orc input e stC (fun a => hx .hdr10plus a)
    generalize hGD : ({ stC with
      done3 := stC.done3 || (find e plusType).isSome,
      used3 := if stC.done3 then stC.used3 else optOr (find e plusType) stC.used3,
      plus := pl2, fresh := frD, events := evD } : ScanSt) = stD at hD
    have d0 : stD.done0 = stC.done0 := by rw [← hGD]
    have d0u : stD.used0 = stC.used0 := by rw [← hGD]
    have d1 : stD.done1 = stC.done1 := by rw [← hGD]
    have d1u : stD.used1 = stC.used1 := by rw [← hGD]
    have d2 : stD.done2 = stC.done2 := by rw [← hGD]
    have d2u : stD.used2 = stC.used2 := by rw [← hGD]
    have d3 : stD.done3 = (stC.done3 || (find e plusType).isSome) := by rw [← hGD]
    have d3u : stD.used3 =
        (if stC.done3 then stC.used3 else optOr (find e plusType) stC.used3) := by
      rw [← hGD]
    refine ⟨stD, ?_, ?_, ?_, ?_, ?_, ?_, ?_, ?_, ?_⟩
    · simp only [scan_coll]
      rw [if_neg hguard]
      simp only [Bind.bind, Except.bind, hA, hB, hC, hD]
    · rw [d0, c0, b0, a0]
    · rw [d0u, c0u, b0u, a0u]
    · rw [d1, c1, b1, a1]
    · rw [d1u, c1u, b1u, a1u, a1]
    · rw [d2, c2, b2, a2]
    · rw [d2u, c2u, b2u, b2, a2u, a2]
    · rw [d3, c3, b3, a3]
    · rw [d3u, c3u, c3, b3u, b3, a3u, a3]

/-- C1: under successful extraction runs and a parseable mastering-display
record, `pre_hdr` consumes, for each of the four metadata kinds, exactly the
first matching record of the stream-level list when one exists and the
first matching record of the frame-level list otherwise; a record of a kind
already seen is never consumed, and within one list only the first matching
record can be the consumed one (the final conjunct exhibits it as the first
occurrence). -/
theorem pre_hdr_first_occurrence :
    ∀ (stream_sdl frame_sdl : Option (List SideData)) (input : String)
      (fresh : List String) (orc : ToolOracle),
      (∀ t a, (orc t a).1 = 0) →
      (∀ r, optOr (find stream_sdl mdType) (find frame_sdl mdType) = some r →
        ∃ s, parse_master_display r = .ok s) →
      ∃ st, pre_hdr stream_sdl frame_sdl input fresh orc = .ok st ∧
        st.used0 = optOr (find stream_sdl mdType) (find frame_sdl mdType) ∧
        st.used1 = optOr (find stream_sdl cllType) (find frame_sdl cllType) ∧
        st.used2 = optOr (find stream_sdl doviType) (find frame_sdl doviType) ∧
        st.used3 = optOr (find stream_sdl plusType) (find frame_sdl plusType) ∧
        (∀ (t : String) (r : SideData) (l : List SideData),
          stream_sdl = some l ∨ frame_sdl = some l →
          find (some l) t = some r →
          ∃ l1 l2, l = l1 ++ r :: l2 ∧ r.side_data_type = t ∧
            ∀ x ∈ l1, x.side_data_type ≠ t) := by
  intro S F input fresh orc hx hmd
  obtain ⟨stA, hA, a0, a0u, a1, a1u, a2, a2u, a3, a3u⟩ :=
    scan_coll_spec orc input S { fresh := fresh } hx
      (fun _ r hr => hmd r (by rw [hr]; rfl))
  simp only [Bool.false_or, if_false, Bool.false_eq_true, optOr] at a0 a0u a1 a1u a2 a2u a3 a3u
  obtain ⟨stB, hB, b0, b0u, b1, b1u, b2, b2u, b3, b3u⟩ :=
    scan_coll_spec orc input F stA hx
      (by
        intro hdone r hr
        refine hmd r ?_
        rw [a0] at hdone
        have hnone : find S mdType = none := by
          rcases hfs : find S mdType with _ | r'
          · rfl
          · rw [hfs] at hdone; simp at hdone
        rw [hnone, hr]
        rfl)
  refine ⟨stB, ?_, ?_, ?_, ?_, ?_, ?_⟩
  · simp only [pre_hdr, Bind.bind, Except.bind, hA, hB]
  · rcases hS : find S mdType with _ | r <;>
      rcases hF : find F mdType with _ | r2 <;>
      simp [b0u, a0, a0u, hS, hF, optOr]
  · rcases hS : find S cllType with _ | r <;>
      rcases hF : find F cllType with _ | r2 <;>
      simp [b1u, a1, a1u, hS, hF, optOr]
  · rcases hS : find S doviType with _ | r <;>
      rcases hF : find F doviType with _ | r2 <;>
      simp [b2u, a2, a2u, hS, hF, optOr]
  · rcases hS : find S plusType with _ | r <;>
      rcases hF : find F plusType with _ | r2 <;>
      simp [b3u, a3, a3u, hS, hF, optOr]
  · intro t r l _ hfind
    have hq : l.find? (fun a => a.side_data_type = t) = some r := by
      rcases l with _ | ⟨a, as⟩
      · simp [find] at hfind
      · simpa [find] using hfind
    exact find_first hq

/-- Witness for `pre_hdr_first_occurrence`: stream and frame both carry a
Dolby-Vision record; the stream-level one is the record consumed. -/
theorem pre_hdr_first_occurrence_witness :
    ∃ st, pre_hdr (some [{ side_data_type := doviType }])
        (some [{ side_data_type := doviType, max_content := JField.fnum 1 }])
        "in.mkv" ["aa", "bb"] (fun _ _ => (0, "")) = .ok st ∧
      st.used2 = some { side_data_type := doviType } := by
  have hS : find (some [({ side_data_type := doviType } : SideData)]) mdType = none := by
    decide
  have hF :
      find (some [({ side_data_type := doviType,
                     max_content := JField.fnum 1 } : SideData)]) mdType = none := by
    decide
  obtain ⟨st, hEq, _, _, h2, _, _⟩ :=
    pre_hdr_first_occurrence (some [{ side_data_type := doviType }])
      (some [{ side_data_type := doviType, max_content := JField.fnum 1 }])
      "in.mkv" ["aa", "bb"] (fun _ _ => (0, "")) (fun _ _ => rfl)
      (fun r h => by rw [hS, hF] at h; simp [optOr] at h)
  refine ⟨st, hEq, ?_⟩
  rw [h2]
  decide

/-! ## C9: probe failure is terminal -/

/-- C9 (counterexample): the claim asserts that every non-zero probe exit
reports a probe error carrying the captured diagnostic text; but when the
captured stderr trims to the empty string, `d._e` is falsy, `main` walks
past the check, and dereferencing `d.streams` of the error object throws a
TypeError which the global catch reports instead.  (No further subprocess is
spawned either way.) -/
theorem main_probe_empty_diag :
    main_model "in.mkv" "out.mkv" {} { probe_exit := 1, probe_stderr := " " } =
      ([.spawn .ffprobe (probe_args "in.mkv")], some (.caught "TypeError")) := by
  decide

/-- C9 (amended): whenever the probe tool exits non-zero, the only
subprocess in the whole run is the probe tool itself; if the trimmed
diagnostic text is nonempty the run stops with the probe-error message
carrying that text, and if it is empty the run stops with the TypeError the
global catch absorbs. -/
theorem main_probe_failure_spec :
    ∀ (input output : String) (opts : Opts) (orc : Oracle),
      orc.probe_exit ≠ 0 →
      (main_model input output opts orc).1 = [.spawn .ffprobe (probe_args input)] ∧
      (jsTrim orc.probe_stderr ≠ "" →
        (main_model input output opts orc).2 =
          some (.errReturn ("Could not parse with ffprobe: " ++
            jsTrim orc.probe_stderr))) ∧
      (jsTrim orc.probe_stderr = "" →
        (main_model input output opts orc).2 = some (.caught "TypeError")) := by
  intro input output opts orc h
  refine ⟨?_, ?_, ?_⟩
  · simp only [main_model, if_pos h]
    by_cases he : jsTrim orc.probe_stderr = "" <;> simp [he]
  · intro he
    simp only [main_model, if_pos h]
    simp [he]
  · intro he
    simp only [main_model, if_pos h]
    simp [he]

/-- Witness for `main_probe_failure_spec` at a failing probe with nonempty
diagnostics. -/
theorem main_probe_failure_spec_witness :
    (main_model "in.mkv" "o.mkv" {} { probe_exit := 1, probe_stderr := "boom" }).1 =
      [.spawn .ffprobe (probe_args "in.mkv")] ∧
    (main_model "in.mkv" "o.mkv" {} { probe_exit := 1, probe_stderr := "boom" }).2 =
      some (.errReturn ("Could not parse with ffprobe: " ++ jsTrim "boom")) := by
  have h := main_probe_failure_spec "in.mkv" "o.mkv" {}
    { probe_exit := 1, probe_stderr := "boom" } (by decide)
  exact ⟨h.1, h.2.1 (by decide)⟩

end HdrSucks
